import Mathlib

/-!
A shallow embedding of the apexd activation/deactivation engine
(`system/apex`, files `apexd.cpp`, `apex_file.cpp`, `apexd_utils.h`).

Kernel facilities (loop devices, device-mapper, the VFS) are modelled as an
explicit state (`KState`) threaded through the operations, together with an
environment record whose boolean fields give the outcome of each fallible
kernel call.  Every operation additionally returns a trace of events (`Ev`)
recording the order in which it touched the kernel, so temporal claims can be
stated about the order of loop creation, verity checking, mounting, and
registry updates.
-/

namespace ApexdModel

/- Constants from apexd.h / apexd.cpp. -/

def kApexRoot : String := "/apex"

def kApexPackageSystemDir : String := "/system/apex"

/-- Modelled from the spec: the persistent active-packages directory
(`kActiveApexPackagesDataDir`); its defining header is not part of the
sources, the spec describes it as `/<activeApexDir>/<packageId>.apex`. -/
def kActiveApexPackagesDataDir : String := "/data/apex/active"

def kApexPackageSuffix : String := ".apex"

/-- Models `android::base::StartsWith`: character-wise prefix test (defined over
the character list so that it evaluates by kernel reduction). -/
def strStartsWith (s p : String) : Bool := p.data.isPrefixOf s.data

def kLoopDeviceSetupAttempts : Nat := 3

def kMountAttempts : Nat := 5

/-- The `Status` result type used throughout apexd: success, or failure with
a carried message (`Status::Success()` / `Status::Fail(msg)`). -/
inductive Status where
  | ok : Status
  | fail (msg : String) : Status
deriving DecidableEq, Repr

/-- The information `ApexFile::Open` extracts from a package file:
manifest name and version, and whether the package is flattened. -/
structure FileInfo where
  name : String
  version : Nat
  flattened : Bool
  preHook : Bool
  postHook : Bool
deriving DecidableEq, Repr

/-- An opened `ApexFile`: the path it was opened from plus its `FileInfo`. -/
structure ApexFileData where
  path : String
  name : String
  version : Nat
  flattened : Bool
deriving DecidableEq, Repr

/-- Models `ApexFile::Open`: looks the path up in the file system environment. -/
def openApex (files : String → Option FileInfo) (path : String) :
    Option ApexFileData :=
  (files path).map (fun i => ⟨path, i.name, i.version, i.flattened⟩)

/-- The package id `GetPackageId(manifest)` = `name@version`. -/
def GetPackageId (name : String) (version : Nat) : String :=
  name ++ "@" ++ toString version

/-- Models `apexd_private::GetPackageMountPoint`: `<root>/<packageId>`. -/
def GetPackageMountPoint (name : String) (version : Nat) : String :=
  kApexRoot ++ "/" ++ GetPackageId name version

/-- Models `apexd_private::GetActiveMountPoint`: `<root>/<name>`. -/
def GetActiveMountPoint (name : String) : String :=
  kApexRoot ++ "/" ++ name

/-- Models `MountedApexDatabase::MountedApexData`: loop device name and source path. -/
structure MountedApexData where
  loop_name : String
  full_path : String
deriving DecidableEq, Repr

/-- One record of the in-memory registry: package name, mount data, and the
`isLatest` flag. -/
structure DbEntry where
  name : String
  data : MountedApexData
  latest : Bool
deriving DecidableEq, Repr

/-- Modelled from the spec: `apex_database.h` is not part of the sources.
`add(name, record, isLatest)` inserts a record for the package name. -/
def AddMountedApex (db : List DbEntry) (name : String) (latest : Bool)
    (data : MountedApexData) : List DbEntry :=
  db ++ [⟨name, data, latest⟩]

/-- Modelled from the spec: `remove(name, sourcePath)` removes the record
matching the pair. -/
def RemoveMountedApex (db : List DbEntry) (name full_path : String) :
    List DbEntry :=
  db.filter (fun e => !(e.name == name && e.data.full_path == full_path))

/-- Modelled from the spec: `setLatest(name, sourcePath)` clears the
`isLatest` flag on any existing record for the name and sets it on the
record with the given source path. -/
def SetLatest (db : List DbEntry) (name full_path : String) : List DbEntry :=
  db.map (fun e =>
    if e.name = name then { e with latest := e.data.full_path == full_path }
    else e)

/-- The kernel-visible state threaded through the operations: live loop
devices, live dm nodes, ext4 mounts `(mountPoint, blockDevice)`, bind mounts
`(target, source)`, mount point directories, and the in-memory registry. -/
structure KState where
  loops : List String
  dms : List String
  mounts : List (String × String)
  binds : List (String × String)
  dirs : List String
  db : List DbEntry
deriving DecidableEq, Repr

/-- Events emitted by the operations, in program order. -/
inductive Ev where
  | loopAttempt (ok : Bool)
  | loopCreated (name : String)
  | loopReleased (name : String)
  | verityCheck (ok : Bool)
  | dmCreated (name : String)
  | dmDeleted (name : String)
  | sleepMs (ms : Nat)
  | mountAttempt (ok : Bool)
  | mounted (mp bd : String)
  | bindMounted (target src : String)
  | mkdirEv (p : String)
  | rmdirEv (p : String)
  | unmounted (p : String)
  | dbAdd (name : String)
  | dbRemove (name path : String)
  | destroyedAllLoops
deriving DecidableEq, Repr

/-- Outcomes of the kernel calls made by `mountFlattened` /
`mountNonFlattened` / `MountPackage`: whether the i-th loop-creation
attempt succeeds and the name the kernel assigns, the verity verification
result, the `gForceDmVerityOnSystem` property, the dm calls, read-ahead
configuration, whether the c-th `mount(2)` attempt succeeds, the flattened
bind mount, and the `mkdir` of the mount point. -/
structure MountEnv where
  loopOk : Nat → Bool
  loopName : String
  verityOk : Bool
  force : Bool
  dmCreateOk : Bool
  dmPathOk : Bool
  readAheadOk : Bool
  mountOk : Nat → Bool
  bindOk : Bool
  mkdirOk : Bool

/-- The loop-creation retry loop of `mountNonFlattened`
(`for (size_t attempts = 1;; ++attempts)`): attempt, and on failure retry
unless `attempts >= kLoopDeviceSetupAttempts`.  Returns whether a loop
device was obtained and the trace of attempts.  The fuel argument equals
the number of attempts still allowed and is `kLoopDeviceSetupAttempts` at
the initial call, so the zero-fuel case is never reached. -/
def createLoopRetry (env : MountEnv) (attempt fuel : Nat) :
    Bool × List Ev :=
  match fuel with
  | 0 => (false, [])
  | f + 1 =>
    if env.loopOk attempt then
      (true, [Ev.loopAttempt true, Ev.loopCreated env.loopName])
    else if kLoopDeviceSetupAttempts ≤ attempt then
      (false, [Ev.loopAttempt false])
    else
      let r := createLoopRetry env (attempt + 1) f
      (r.1, Ev.loopAttempt false :: r.2)

/-- The ext4 mount retry loop of `mountNonFlattened`
(`for (size_t count = 0; count < kMountAttempts; ++count)`): attempt the
mount; on failure sleep 50ms (`usleep(50000)`) and retry.  The fuel
argument is `kMountAttempts - count`. -/
def mountRetry (env : MountEnv) (count fuel : Nat) : Bool × List Ev :=
  match fuel with
  | 0 => (false, [])
  | f + 1 =>
    if env.mountOk count then
      (true, [Ev.mountAttempt true])
    else
      let r := mountRetry env (count + 1) f
      (r.1, Ev.mountAttempt false :: Ev.sleepMs 50 :: r.2)

/-- The device path `DeviceMapper::GetDmDevicePathByName` resolves a dm node
name to (modelled injectively). -/
def dmDevPath (name : String) : String := "/dev/block/dm/" ++ name

/-- Models `createVerityDevice(name, table)`: if a dm node of that name already
exists, delete it; create the device; resolve its device path.  If the path
lookup fails the scoped `DmVerityDevice` just constructed deletes the node
on return. -/
def createVerityDevice (env : MountEnv) (name : String) (st : KState) :
    Option String × KState × List Ev :=
  let pre :=
    if name ∈ st.dms then
      ({ st with dms := st.dms.erase name }, [Ev.dmDeleted name])
    else (st, ([] : List Ev))
  if env.dmCreateOk = false then
    (none, pre.1, pre.2)
  else
    let st1 := { pre.1 with dms := name :: pre.1.dms }
    if env.dmPathOk = false then
      (none, { st1 with dms := st1.dms.erase name },
        pre.2 ++ [Ev.dmCreated name, Ev.dmDeleted name])
    else
      (some (dmDevPath name), st1, pre.2 ++ [Ev.dmCreated name])

/-- Result of a mount operation: status, final state, event trace, and the
`MountedApexData` out-parameter. -/
structure MountResult where
  status : Status
  st : KState
  tr : List Ev
  data : MountedApexData
deriving Repr

/-- Models `mountNonFlattened(apex, mountPoint, apex_data)`: create a loop device
(retrying up to `kLoopDeviceSetupAttempts` times), verify the apex verity
data, decide whether to interpose dm-verity
(`gForceDmVerityOnSystem || !StartsWith(full_path, kApexPackageSystemDir)`),
create the verity device and configure read-ahead if so, then attempt the
ext4 mount up to `kMountAttempts` times.  On success the scoped loop and
verity handles are committed (`CloseGood` / `Release`); on any failure they
are released by their destructors. -/
def mountNonFlattened (env : MountEnv) (apex : ApexFileData)
    (mountPoint : String) (st : KState) : MountResult :=
  let packageId := GetPackageId apex.name apex.version
  let lr := createLoopRetry env 1 kLoopDeviceSetupAttempts
  if lr.1 = false then
    { status := .fail ("Could not create loop device for " ++ apex.path),
      st := st, tr := lr.2, data := ⟨"", apex.path⟩ }
  else
    let st1 := { st with loops := env.loopName :: st.loops }
    if env.verityOk = false then
      { status := .fail ("Failed to verify Apex Verity data for " ++ apex.path),
        st := { st1 with loops := st1.loops.erase env.loopName },
        tr := lr.2 ++ [Ev.verityCheck false, Ev.loopReleased env.loopName],
        data := ⟨"", apex.path⟩ }
    else
      let data : MountedApexData := ⟨env.loopName, apex.path⟩
      let mountOnVerity :=
        env.force || !(strStartsWith apex.path kApexPackageSystemDir)
      if mountOnVerity then
        let cv := createVerityDevice env packageId st1
        match cv.1 with
        | none =>
          { status := .fail ("Failed to create Apex Verity device " ++ apex.path),
            st := { cv.2.1 with loops := cv.2.1.loops.erase env.loopName },
            tr := lr.2 ++ [Ev.verityCheck true] ++ cv.2.2 ++
              [Ev.loopReleased env.loopName],
            data := data }
        | some devPath =>
          if env.readAheadOk = false then
            { status := .fail ("Failed to configure read ahead for " ++ devPath),
              st := { cv.2.1 with
                dms := cv.2.1.dms.erase packageId,
                loops := cv.2.1.loops.erase env.loopName },
              tr := lr.2 ++ [Ev.verityCheck true] ++ cv.2.2 ++
                [Ev.dmDeleted packageId, Ev.loopReleased env.loopName],
              data := data }
          else
            let mr := mountRetry env 0 kMountAttempts
            if mr.1 then
              { status := .ok,
                st := { cv.2.1 with
                  mounts := (mountPoint, devPath) :: cv.2.1.mounts },
                tr := lr.2 ++ [Ev.verityCheck true] ++ cv.2.2 ++ mr.2 ++
                  [Ev.mounted mountPoint devPath],
                data := data }
            else
              { status := .fail ("Mounting failed for package " ++ apex.path),
                st := { cv.2.1 with
                  dms := cv.2.1.dms.erase packageId,
                  loops := cv.2.1.loops.erase env.loopName },
                tr := lr.2 ++ [Ev.verityCheck true] ++ cv.2.2 ++ mr.2 ++
                  [Ev.dmDeleted packageId, Ev.loopReleased env.loopName],
                data := data }
      else
        let mr := mountRetry env 0 kMountAttempts
        if mr.1 then
          { status := .ok,
            st := { st1 with
              mounts := (mountPoint, env.loopName) :: st1.mounts },
            tr := lr.2 ++ [Ev.verityCheck true] ++ mr.2 ++
              [Ev.mounted mountPoint env.loopName],
            data := data }
        else
          { status := .fail ("Mounting failed for package " ++ apex.path),
            st := { st1 with loops := st1.loops.erase env.loopName },
            tr := lr.2 ++ [Ev.verityCheck true] ++ mr.2 ++
              [Ev.loopReleased env.loopName],
            data := data }

/-- Models `mountFlattened(apex, mountPoint, apex_data)`: only packages under
`kApexPackageSystemDir` may be activated flattened; bind-mount the source
directory at the mount point and record an empty loop name. -/
def mountFlattened (env : MountEnv) (apex : ApexFileData)
    (mountPoint : String) (st : KState) : MountResult :=
  if !(strStartsWith apex.path kApexPackageSystemDir) then
    { status := .fail ("Cannot activate flattened APEX " ++ apex.path),
      st := st, tr := [], data := ⟨"", apex.path⟩ }
  else if env.bindOk then
    { status := .ok,
      st := { st with binds := (mountPoint, apex.path) :: st.binds },
      tr := [Ev.bindMounted mountPoint apex.path],
      data := ⟨"", apex.path⟩ }
  else
    { status := .fail ("Mounting failed for flattened package " ++ apex.path),
      st := st, tr := [], data := ⟨"", apex.path⟩ }

/-- Models `apexd_private::MountPackage(apex, mountPoint)`: create the mount point
directory, dispatch on flattened / non-flattened, on failure remove the
mount point directory, on success add a record to the registry. -/
def MountPackage (env : MountEnv) (apex : ApexFileData)
    (mountPoint : String) (st : KState) : Status × KState × List Ev :=
  if env.mkdirOk = false then
    (.fail ("Could not create mount point " ++ mountPoint), st, [])
  else
    let st0 := { st with dirs := mountPoint :: st.dirs }
    let r :=
      if apex.flattened then mountFlattened env apex mountPoint st0
      else mountNonFlattened env apex mountPoint st0
    match r.status with
    | .fail e =>
      (.fail e, { r.st with dirs := r.st.dirs.erase mountPoint },
        Ev.mkdirEv mountPoint :: r.tr ++ [Ev.rmdirEv mountPoint])
    | .ok =>
      (.ok, { r.st with db := AddMountedApex r.st.db apex.name false r.data },
        Ev.mkdirEv mountPoint :: r.tr ++ [Ev.dbAdd apex.name])

/-- Environment of `activatePackage`: the file system (`ApexFile::Open`),
the mount environment, and the outcome of the latest-alias bind mount
(`apexd_private::BindMount`, modelled from the spec: its definition is not
part of the sources; the spec says it bind-mounts the versioned mount point
at the alias path). -/
structure ActEnv where
  files : String → Option FileInfo
  mnt : MountEnv
  bindLatestOk : Bool

/-- Accumulator of the registry scan at the top of `activatePackage`. -/
structure ScanAcc where
  is_newest_version : Bool := true
  found_other_version : Bool := false
  version_found_mounted : Bool := false
  version_found_active : Bool := false
deriving DecidableEq, Repr

/-- The visitor body of the `ForallMountedApexes(name, ...)` scan of
`activatePackage` applied to one registry record: for a record of this
package name, open its source file (skipping the record on open failure),
note whether the new version is already mounted / active, and whether a
strictly newer version exists. -/
def scanStep (files : String → Option FileInfo) (name : String)
    (new_version : Nat) (acc : ScanAcc) (e : DbEntry) : ScanAcc :=
  if e.name = name then
    match files e.data.full_path with
    | none => acc
    | some other =>
      let acc1 := { acc with found_other_version := true }
      let acc2 :=
        if other.version = new_version then
          { acc1 with version_found_mounted := true,
                      version_found_active := e.latest }
        else acc1
      if new_version < other.version then
        { acc2 with is_newest_version := false }
      else acc2
  else acc

/-- The full registry scan at the top of `activatePackage`. -/
def activateScan (files : String → Option FileInfo) (name : String)
    (new_version : Nat) (db : List DbEntry) : ScanAcc :=
  db.foldl (scanStep files name new_version) {}

/-- Models `activatePackage(full_path)`: open the package; scan the registry; fail
if this version is already active; mount it (unless this version is already
mounted); if it is the newest version, bind-mount the latest alias and on
success mark the record latest.  A failed alias bind mount is logged but not
fatal. -/
def activatePackage (env : ActEnv) (full_path : String) (st : KState) :
    Status × KState × List Ev :=
  match openApex env.files full_path with
  | none => (.fail ("Failed to open package " ++ full_path), st, [])
  | some apex =>
    let acc := activateScan env.files apex.name apex.version st.db
    if acc.version_found_active then
      (.fail "Package is already active.", st, [])
    else
      let mountPoint := GetPackageMountPoint apex.name apex.version
      let m :=
        if acc.version_found_mounted = false then
          MountPackage env.mnt apex mountPoint st
        else (.ok, st, [])
      match m.1 with
      | .fail e => (.fail e, m.2.1, m.2.2)
      | .ok =>
        let aliasPoint := GetActiveMountPoint apex.name
        let b :=
          if acc.is_newest_version then
            if env.bindLatestOk then
              (true,
                { m.2.1 with binds := (aliasPoint, mountPoint) :: m.2.1.binds },
                m.2.2 ++ [Ev.bindMounted aliasPoint mountPoint])
            else (false, m.2.1, m.2.2)
          else (false, m.2.1, m.2.2)
        let st3 :=
          if b.1 then
            { b.2.1 with db := SetLatest b.2.1.db apex.name full_path }
          else b.2.1
        (.ok, st3, b.2.2)

/-- Environment of `deactivatePackage`: the file system and the outcomes of
the two `umount2` and two `rmdir` calls of `deactivatePackageImpl`. -/
structure DeactEnv where
  files : String → Option FileInfo
  umountActiveOk : Bool
  umountPkgOk : Bool
  rmdirActiveOk : Bool
  rmdirPkgOk : Bool

/-- Detach everything mounted (ext4 or bind) at a mount point
(`umount2(..., UMOUNT_NOFOLLOW | MNT_DETACH)`). -/
def detachAt (st : KState) (mp : String) : KState :=
  { st with
    mounts := st.mounts.filter (fun m => !(m.1 == mp)),
    binds := st.binds.filter (fun b => !(b.1 == mp)) }

/-- Models `deactivatePackageImpl(apex)`: unmount and delete the name-only
("latest") mount point — failure of the unmount is fatal, failure of the
`rmdir` is not; then unmount the versioned mount point — failure fatal;
attempt to `rmdir` it, deferring a failure message; destroy all loop
devices (not only this package's) unless the package is flattened; finally
fail iff the deferred message is nonempty. -/
def deactivatePackageImpl (env : DeactEnv) (apex : ApexFileData)
    (st : KState) : Status × KState × List Ev :=
  let active_mp := GetActiveMountPoint apex.name
  if env.umountActiveOk = false then
    (.fail ("Failed to unmount " ++ active_mp), st, [])
  else
    let st1 := detachAt st active_mp
    let st2 :=
      if env.rmdirActiveOk then
        { st1 with dirs := st1.dirs.erase active_mp }
      else st1
    let tr2 := [Ev.unmounted active_mp] ++
      (if env.rmdirActiveOk then [Ev.rmdirEv active_mp] else [])
    let pkg_mp := GetPackageMountPoint apex.name apex.version
    if env.umountPkgOk = false then
      (.fail ("Failed to unmount " ++ pkg_mp), st2, tr2)
    else
      let st3 := detachAt st2 pkg_mp
      let st4 :=
        if env.rmdirPkgOk then { st3 with dirs := st3.dirs.erase pkg_mp }
        else st3
      let tr4 := tr2 ++ [Ev.unmounted pkg_mp] ++
        (if env.rmdirPkgOk then [Ev.rmdirEv pkg_mp] else [])
      let st5 :=
        if apex.flattened then st4 else { st4 with loops := [] }
      let tr5 := tr4 ++ (if apex.flattened then [] else [Ev.destroyedAllLoops])
      if env.rmdirPkgOk then (.ok, st5, tr5)
      else (.fail ("Failed to rmdir " ++ pkg_mp), st5, tr5)

/-- Models `deactivatePackage(full_path)`: open the package, run
`deactivatePackageImpl`, and on success remove the `(name, full_path)`
record from the registry. -/
def deactivatePackage (env : DeactEnv) (full_path : String) (st : KState) :
    Status × KState × List Ev :=
  match openApex env.files full_path with
  | none => (.fail ("Failed to open package " ++ full_path), st, [])
  | some apex =>
    let r := deactivatePackageImpl env apex st
    match r.1 with
    | .ok =>
      (.ok,
        { r.2.1 with db := RemoveMountedApex r.2.1.db apex.name full_path },
        r.2.2 ++ [Ev.dbRemove apex.name full_path])
    | .fail e => (.fail e, r.2.1, r.2.2)

/- Staging (`stagePackages`, `preinstallPackages`, `postinstallPackages`).
The persistent active-packages directory is modelled as the list of apex
file paths it contains. -/

/-- Environment of the staging operations: the file system, the per-path
verity verification outcome, `createDirIfNeeded`, the per-source `link` /
`rename` / `restorecon` outcomes, the readability of the active directory,
and the per-path `unlink` outcome used when removing previously active
files. -/
structure StageEnv where
  files : String → Option FileInfo
  verityOkOf : String → Bool
  createDirOk : Bool
  linkOkOf : String → Bool
  renameOkOf : String → Bool
  restoreconOkOf : String → Bool
  readActiveDirOk : Bool
  unlinkPrevOkOf : String → Bool

/-- Models `HandlePackages` step 1: open every path, failing on the first bad one. -/
def openAll (files : String → Option FileInfo) :
    List String → Except String (List ApexFileData)
  | [] => .ok []
  | p :: rest =>
    match openApex files p with
    | none => .error ("Failed to open package " ++ p)
    | some f =>
      match openAll files rest with
      | .error e => .error e
      | .ok fs => .ok (f :: fs)

/-- The verification loop of `verifyPackages`: `VerifyApexVerity` on each
opened package, failing on the first bad one. -/
def verityLoop (env : StageEnv) : List ApexFileData → Status
  | [] => .ok
  | f :: rest =>
    if env.verityOkOf f.path then verityLoop env rest
    else .fail ("Failed to verify Apex Verity data for " ++ f.path)

/-- Models `verifyPackages(paths)`: reject the empty set, open all packages, then
verify each one's verity data. -/
def verifyPackages (env : StageEnv) (paths : List String) : Status :=
  if paths.isEmpty then .fail "Empty set of inputs"
  else
    match openAll env.files paths with
    | .error e => .fail e
    | .ok fs => verityLoop env fs

/-- The staged destination path: `<activeDir>/<packageId>.apex`. -/
def destPathOf (name : String) (version : Nat) : String :=
  kActiveApexPackagesDataDir ++ "/" ++ GetPackageId name version ++
    kApexPackageSuffix

/-- Insert into an `std::unordered_set` modelled as a list. -/
def insertIfAbsent (x : String) (l : List String) : List String :=
  if x ∈ l then l else x :: l

/-- The per-package staging loop of `stagePackages`: open the package,
compute its destination, `link` (fails if the destination exists) or
`rename` (replaces the destination) it there, record the staged file and
package name, and in rename mode `restorecon` the destination.  Returns the
status together with the active directory contents and the
`staged_files` / `staged_packages` sets. -/
def stageLoop (env : StageEnv) (link : Bool) :
    List String → List String → List String → List String →
    Status × List String × List String × List String
  | [], fs, sf, sp => (.ok, fs, sf, sp)
  | p :: rest, fs, sf, sp =>
    match openApex env.files p with
    | none => (.fail ("Failed to open package " ++ p), fs, sf, sp)
    | some f =>
      let dest := destPathOf f.name f.version
      if link then
        if env.linkOkOf p = true ∧ dest ∉ fs then
          stageLoop env link rest (dest :: fs) (insertIfAbsent dest sf)
            (insertIfAbsent f.name sp)
        else
          (.fail ("Unable to link " ++ p ++ " to " ++ dest), fs, sf, sp)
      else
        if env.renameOkOf p then
          let fs1 := if dest ∈ fs then fs else dest :: fs
          let sf1 := insertIfAbsent dest sf
          let sp1 := insertIfAbsent f.name sp
          if env.restoreconOkOf dest then stageLoop env link rest fs1 sf1 sp1
          else (.fail ("Failed to restorecon " ++ dest), fs1, sf1, sp1)
        else
          (.fail ("Unable to rename " ++ p ++ " to " ++ dest), fs, sf, sp)

/-- The scope-guard deleter of `stagePackages`: unlink every staged
destination produced so far. -/
def runDeleter (sf fs : List String) : List String :=
  sf.foldl (fun acc d => acc.erase d) fs

/-- The loop of `RemovePreviouslyActiveApexFiles` over the files of the
active directory: keep files of unaffected packages and freshly staged
paths, unlink the rest. -/
def removePrevLoop (env : StageEnv) (sp sf : List String) :
    List String → List String → Status × List String
  | [], fs => (.ok, fs)
  | path :: rest, fs =>
    match env.files path with
    | none => (.fail ("Failed to open package " ++ path), fs)
    | some f =>
      if !(sp.contains f.name) then removePrevLoop env sp sf rest fs
      else if sf.contains path then removePrevLoop env sp sf rest fs
      else if env.unlinkPrevOkOf path then
        removePrevLoop env sp sf rest (fs.erase path)
      else (.fail ("Failed to unlink " ++ path), fs)

/-- Models `RemovePreviouslyActiveApexFiles(affected_packages, files_to_keep)`:
enumerate the active directory and unlink every file that belongs to a
staged package name but is not itself a kept staged path. -/
def RemovePreviouslyActiveApexFiles (env : StageEnv) (sp sf : List String)
    (fs : List String) : Status × List String :=
  if env.readActiveDirOk = false then
    (.fail ("Can't open " ++ kActiveApexPackagesDataDir ++ " for reading"), fs)
  else removePrevLoop env sp sf fs fs

/-- Result of `stagePackages`: status, final active-directory contents, and
whether the staging batch committed (`scope_guard.Disable()` was reached). -/
structure StageRes where
  status : Status
  fs : List String
  committed : Bool
deriving DecidableEq, Repr

/-- Models `stagePackages(tmpPaths, linkPackages)`: reject the empty set; verify
all packages; ensure the active directory exists; stage each package with a
scope guard that unlinks every staged destination on failure; on success
disable the guard (commit) and remove previously active files of the staged
package names. -/
def stagePackages (env : StageEnv) (tmpPaths : List String) (link : Bool)
    (fs : List String) : StageRes :=
  if tmpPaths.isEmpty then ⟨.fail "Empty set of inputs", fs, false⟩
  else
    match verifyPackages env tmpPaths with
    | .fail e => ⟨.fail e, fs, false⟩
    | .ok =>
      if env.createDirOk = false then
        ⟨.fail ("Could not mkdir " ++ kActiveApexPackagesDataDir), fs, false⟩
      else
        let r := stageLoop env link tmpPaths fs [] []
        match r.1 with
        | .fail e => ⟨.fail e, runDeleter r.2.2.1 r.2.1, false⟩
        | .ok =>
          let rp := RemovePreviouslyActiveApexFiles env r.2.2.2 r.2.2.1 r.2.1
          ⟨rp.1, rp.2, true⟩

/-- Models `PrePostinstallPackages(apexes, fn, call)`: reject the empty set; if any
package's manifest carries the hook, run the external hook executor and
propagate its failure. -/
def PrePostinstallPackages (hasHook : ApexFileData → Bool) (callOk : Bool)
    (apexes : List ApexFileData) : Status :=
  if apexes.isEmpty then .fail "Empty set of inputs"
  else
    let has_hooks := apexes.any hasHook
    if has_hooks then
      if callOk then .ok else .fail "Hook failed"
    else .ok

/-- Whether the opened package's manifest carries a preinstall hook; the
hook strings themselves live in the manifest, modelled as the `preHook`
flag of `FileInfo`. -/
def hasPreHook (files : String → Option FileInfo) (f : ApexFileData) : Bool :=
  match files f.path with
  | some i => i.preHook
  | none => false

/-- Same for the postinstall hook. -/
def hasPostHook (files : String → Option FileInfo) (f : ApexFileData) : Bool :=
  match files f.path with
  | some i => i.postHook
  | none => false

/-- Models `preinstallPackages(paths)`: reject the empty set, open all packages
(`HandlePackages`), then run `PreinstallPackages`. -/
def preinstallPackages (env : StageEnv) (preOk : Bool)
    (paths : List String) : Status :=
  if paths.isEmpty then .fail "Empty set of inputs"
  else
    match openAll env.files paths with
    | .error e => .fail e
    | .ok fs => PrePostinstallPackages (hasPreHook env.files) preOk fs

/-- Models `postinstallPackages(paths)`: reject the empty set, open all packages,
then run `PostinstallPackages`. -/
def postinstallPackages (env : StageEnv) (postOk : Bool)
    (paths : List String) : Status :=
  if paths.isEmpty then .fail "Empty set of inputs"
  else
    match openAll env.files paths with
    | .error e => .fail e
    | .ok fs => PrePostinstallPackages (hasPostHook env.files) postOk fs

/- The startup sweep `unmountAndDetachExistingImages`.  Directory names are
modelled as byte lists, matching the byte-wise `std::string` comparison
used by `std::sort`. -/

/-- Byte-wise lexicographic `operator<=` on directory names, as
`std::string` comparison orders them. -/
def lexLe : List Nat → List Nat → Bool
  | [], _ => true
  | _ :: _, [] => false
  | a :: as, b :: bs =>
    if a < b then true else if b < a then false else lexLe as bs

/-- Insert a name into an already-sorted list of names. -/
def insertSorted (x : List Nat) : List (List Nat) → List (List Nat)
  | [] => [x]
  | y :: ys => if lexLe x y then x :: y :: ys else y :: insertSorted x ys

/-- Models `std::sort(folders.begin(), folders.end())`: ascending byte-wise sort,
modelled by insertion sort. -/
def sortDirs : List (List Nat) → List (List Nat)
  | [] => []
  | x :: xs => insertSorted x (sortDirs xs)

/-- Events of the startup sweep. -/
inductive SweepEv where
  | unmount (d : List Nat)
  | rmdir (d : List Nat)
  | destroyLoops
deriving DecidableEq, Repr

/-- The byte value of the character `@` separating name and version in a
versioned mount directory `<name>@<version>`. -/
def atByte : Nat := 64

/-- Models `unmountAndDetachExistingImages()`: read the subdirectories of
`kApexRoot` (the input list), sort them ascending, lazily unmount and
remove each in that order, then destroy the orphan loop devices. -/
def unmountAndDetachExistingImages (folders : List (List Nat)) :
    List SweepEv :=
  ((sortDirs folders).map
      (fun f => [SweepEv.unmount f, SweepEv.rmdir f])).flatten ++
    [SweepEv.destroyLoops]

/- Event classification predicates used by the temporal and bounded-retry
claims. -/

def isLoopAttempt : Ev → Bool
  | .loopAttempt _ => true
  | _ => false

def isMountAttempt : Ev → Bool
  | .mountAttempt _ => true
  | _ => false

def isVerityEv : Ev → Bool
  | .verityCheck _ => true
  | _ => false

def isSleep50 : Ev → Bool
  | .sleepMs ms => ms == 50
  | _ => false

/- Concrete fixtures used by witnesses and counterexamples. -/

def cPath : String := "/data/apex/active/com.test@1.apex"

def cInfo : FileInfo := ⟨"com.test", 1, false, false, false⟩

def cFiles : String → Option FileInfo :=
  fun p => if p = cPath then some cInfo else none

def cApex : ApexFileData := ⟨cPath, "com.test", 1, false⟩

def cSt : KState := ⟨[], [], [], [], [], []⟩

def cStWithLoops : KState :=
  ⟨["/dev/block/loop1", "/dev/block/loop9"], [], [], [], [], []⟩

def cStLatest : KState :=
  ⟨["/dev/block/loop1"], [], [], [], [],
    [⟨"com.test", ⟨"/dev/block/loop1", cPath⟩, true⟩]⟩

def goodMountEnv : MountEnv :=
  ⟨fun _ => true, "/dev/block/loop3", true, false, true, true, true,
    fun _ => true, true, true⟩

def verityFailEnv : MountEnv := { goodMountEnv with verityOk := false }

def loopFailEnv : MountEnv := { goodMountEnv with loopOk := fun _ => false }

def mountFailEnv : MountEnv := { goodMountEnv with mountOk := fun _ => false }

def goodActEnv : ActEnv := ⟨cFiles, goodMountEnv, true⟩

def bindFailActEnv : ActEnv := ⟨cFiles, goodMountEnv, false⟩

def goodDeactEnv : DeactEnv := ⟨cFiles, true, true, true, true⟩

def cPath2 : String := "/data/apex/active/com.two@1.apex"

def cInfo2 : FileInfo := ⟨"com.two", 1, false, false, false⟩

def cFiles2 : String → Option FileInfo :=
  fun p =>
    if p = cPath then some cInfo
    else if p = cPath2 then some cInfo2
    else none

def cFs0 : List String := ["/data/apex/active/com.test@3.apex"]

/-- A staging environment in which linking works for `cPath` but fails for
`cPath2`, so a two-package batch aborts half-way. -/
def partialLinkStageEnv : StageEnv :=
  ⟨cFiles2, fun _ => true, true, fun q => q == cPath, fun _ => true,
    fun _ => true, true, fun _ => true⟩

def cTmpPath : String := "/data/app/vmdl1.tmp/com.test.apex"

def cFilesTmp : String → Option FileInfo :=
  fun p => if p = cTmpPath then some cInfo else none

/-- An active directory that already holds the file of the very packageId
that staging `cTmpPath` produces, so a rename-mode staging overwrites it. -/
def renameCollideFs0 : List String := [destPathOf "com.test" 1]

/-- A rename-mode staging environment whose `restorecon` fails, aborting
the batch after the colliding `rename` has already replaced the previously
active file. -/
def renameCollideEnv : StageEnv :=
  ⟨cFilesTmp, fun _ => true, true, fun _ => true, fun _ => true,
    fun _ => false, true, fun _ => true⟩

def goodStageEnv : StageEnv :=
  ⟨cFiles, fun _ => true, true, fun _ => true, fun _ => true, fun _ => true,
    true, fun _ => true⟩

/- Helper lemmas on the retry loops. -/

theorem createLoopRetry_count_le (env : MountEnv) :
    ∀ f a, ((createLoopRetry env a f).2.countP isLoopAttempt) ≤ f := by
  intro f
  induction f with
  | zero => intro a; simp [createLoopRetry]
  | succ n ih =>
    intro a
    by_cases h : env.loopOk a = true
    · simp [createLoopRetry, h, isLoopAttempt]
    · simp only [Bool.not_eq_true] at h
      by_cases h2 : kLoopDeviceSetupAttempts ≤ a
      · simp [createLoopRetry, h, h2, isLoopAttempt]
      · simp only [createLoopRetry, h, h2, Bool.false_eq_true, if_false,
          if_neg h2, List.countP_cons]
        have := ih (a + 1)
        simp [isLoopAttempt]
        omega

theorem createLoopRetry_only_loop_events (env : MountEnv) :
    ∀ f a e, e ∈ (createLoopRetry env a f).2 →
      e = Ev.loopAttempt true ∨ e = Ev.loopAttempt false ∨
        e = Ev.loopCreated env.loopName := by
  intro f
  induction f with
  | zero => intro a e h; simp [createLoopRetry] at h
  | succ n ih =>
    intro a e h
    by_cases h1 : env.loopOk a = true
    · simp [createLoopRetry, h1] at h
      rcases h with h | h <;> simp [h]
    · simp only [Bool.not_eq_true] at h1
      by_cases h2 : kLoopDeviceSetupAttempts ≤ a
      · simp [createLoopRetry, h1, h2] at h
        simp [h]
      · simp only [createLoopRetry, h1, Bool.false_eq_true, if_false,
          if_neg h2, List.mem_cons] at h
        rcases h with h | h
        · simp [h]
        · exact ih (a + 1) e h

theorem createLoopRetry_success_shape (env : MountEnv) :
    ∀ f a, (createLoopRetry env a f).1 = true →
      ∃ pre, (createLoopRetry env a f).2 =
          pre ++ [Ev.loopAttempt true, Ev.loopCreated env.loopName] ∧
        ∀ e ∈ pre, e = Ev.loopAttempt false := by
  intro f
  induction f with
  | zero => intro a h; simp [createLoopRetry] at h
  | succ n ih =>
    intro a h
    by_cases h1 : env.loopOk a = true
    · refine ⟨[], ?_, by simp⟩
      simp [createLoopRetry, h1]
    · simp only [Bool.not_eq_true] at h1
      by_cases h2 : kLoopDeviceSetupAttempts ≤ a
      · simp [createLoopRetry, h1, h2] at h
      · simp only [createLoopRetry, h1, Bool.false_eq_true, if_false,
          if_neg h2] at h ⊢
        obtain ⟨pre, hpre, hall⟩ := ih (a + 1) h
        refine ⟨Ev.loopAttempt false :: pre, ?_, ?_⟩
        · simp [hpre]
        · intro e he
          rcases List.mem_cons.mp he with h | h
          · exact h
          · exact hall e h

theorem mountRetry_count_le (env : MountEnv) :
    ∀ f c, ((mountRetry env c f).2.countP isMountAttempt) ≤ f := by
  intro f
  induction f with
  | zero => intro c; simp [mountRetry]
  | succ n ih =>
    intro c
    by_cases h : env.mountOk c = true
    · simp [mountRetry, h, isMountAttempt]
    · simp only [Bool.not_eq_true] at h
      simp only [mountRetry, h, Bool.false_eq_true, if_false,
        List.countP_cons]
      have := ih (c + 1)
      simp [isMountAttempt, isSleep50]
      omega

theorem mountRetry_only_mount_events (env : MountEnv) :
    ∀ f c e, e ∈ (mountRetry env c f).2 →
      e = Ev.mountAttempt true ∨ e = Ev.mountAttempt false ∨
        e = Ev.sleepMs 50 := by
  intro f
  induction f with
  | zero => intro c e h; simp [mountRetry] at h
  | succ n ih =>
    intro c e h
    by_cases h1 : env.mountOk c = true
    · simp [mountRetry, h1] at h
      simp [h]
    · simp only [Bool.not_eq_true] at h1
      simp only [mountRetry, h1, Bool.false_eq_true, if_false,
        List.mem_cons] at h
      rcases h with h | h | h
      · simp [h]
      · simp [h]
      · exact ih (c + 1) e h

theorem createLoopRetry_countP_mount_zero (env : MountEnv) (f a : Nat) :
    (createLoopRetry env a f).2.countP isMountAttempt = 0 := by
  rw [List.countP_eq_zero]
  intro e he
  rcases createLoopRetry_only_loop_events env f a e he with h | h | h <;>
    simp [h, isMountAttempt]

theorem createLoopRetry_countP_sleep_zero (env : MountEnv) (f a : Nat) :
    (createLoopRetry env a f).2.countP isSleep50 = 0 := by
  rw [List.countP_eq_zero]
  intro e he
  rcases createLoopRetry_only_loop_events env f a e he with h | h | h <;>
    simp [h, isSleep50]

theorem mountRetry_countP_loop_zero (env : MountEnv) (f c : Nat) :
    (mountRetry env c f).2.countP isLoopAttempt = 0 := by
  rw [List.countP_eq_zero]
  intro e he
  rcases mountRetry_only_mount_events env f c e he with h | h | h <;>
    simp [h, isLoopAttempt]

theorem createVerityDevice_countP (env : MountEnv) (n : String) (st : KState) :
    (createVerityDevice env n st).2.2.countP isLoopAttempt = 0 ∧
    (createVerityDevice env n st).2.2.countP isMountAttempt = 0 ∧
    (createVerityDevice env n st).2.2.countP isSleep50 = 0 := by
  unfold createVerityDevice
  by_cases h1 : n ∈ st.dms <;> by_cases h2 : env.dmCreateOk = false <;>
    by_cases h3 : env.dmPathOk = false <;>
      simp [h1, h2, h3, isLoopAttempt, isMountAttempt, isSleep50]

theorem createLoopRetry_all_fail (env : MountEnv)
    (h : ∀ i, env.loopOk i = false) :
    createLoopRetry env 1 kLoopDeviceSetupAttempts =
      (false, [Ev.loopAttempt false, Ev.loopAttempt false,
        Ev.loopAttempt false]) := by
  simp [createLoopRetry, h, kLoopDeviceSetupAttempts]

theorem mountRetry_all_fail (env : MountEnv)
    (h : ∀ c, env.mountOk c = false) :
    mountRetry env 0 kMountAttempts =
      (false, [Ev.mountAttempt false, Ev.sleepMs 50, Ev.mountAttempt false,
        Ev.sleepMs 50, Ev.mountAttempt false, Ev.sleepMs 50,
        Ev.mountAttempt false, Ev.sleepMs 50, Ev.mountAttempt false,
        Ev.sleepMs 50]) := by
  simp [mountRetry, h, kMountAttempts]

theorem createVerityDevice_ok (env : MountEnv) (n : String) (st : KState)
    (h1 : env.dmCreateOk = true) (h2 : env.dmPathOk = true) :
    (createVerityDevice env n st).1 = some (dmDevPath n) := by
  unfold createVerityDevice
  by_cases h : n ∈ st.dms <;> simp [h, h1, h2]

theorem mountNonFlattened_counts_le (env : MountEnv)
    (apex : ApexFileData) (mp : String) (st : KState) :
    (mountNonFlattened env apex mp st).tr.countP isLoopAttempt ≤
        kLoopDeviceSetupAttempts ∧
    (mountNonFlattened env apex mp st).tr.countP isMountAttempt ≤
        kMountAttempts := by
  have hl := createLoopRetry_count_le env kLoopDeviceSetupAttempts 1
  have hl0 := createLoopRetry_countP_mount_zero env kLoopDeviceSetupAttempts 1
  have hm := mountRetry_count_le env kMountAttempts 0
  have hm0 := mountRetry_countP_loop_zero env kMountAttempts 0
  have hcv := createVerityDevice_countP env
    (GetPackageId apex.name apex.version)
    { st with loops := env.loopName :: st.loops }
  by_cases hlf : (createLoopRetry env 1 kLoopDeviceSetupAttempts).1 = false
  · constructor <;>
      simp [mountNonFlattened, hlf, hl, hl0, kMountAttempts]
  · by_cases hv : env.verityOk = false
    · constructor <;>
        simp [mountNonFlattened, hlf, hv, List.countP_append,
          List.countP_cons, isLoopAttempt, isMountAttempt, hl, hl0,
          kMountAttempts]
    · by_cases hmv :
          (env.force || !(strStartsWith apex.path kApexPackageSystemDir)) = true
      · rcases hc : (createVerityDevice env
            (GetPackageId apex.name apex.version)
            { st with loops := env.loopName :: st.loops }) with ⟨o, st2, tr2⟩
        rw [hc] at hcv
        rcases o with _ | devPath
        · constructor <;>
            simp [mountNonFlattened, hlf, hv, hmv, hc, List.countP_append,
              List.countP_cons, isLoopAttempt, isMountAttempt, hl, hl0,
              hcv.1, hcv.2.1, kMountAttempts]
        · by_cases hra : env.readAheadOk = false
          · constructor <;>
              simp [mountNonFlattened, hlf, hv, hmv, hc, hra,
                List.countP_append, List.countP_cons, isLoopAttempt,
                isMountAttempt, hl, hl0, hcv.1, hcv.2.1, kMountAttempts]
          · by_cases hmk : (mountRetry env 0 kMountAttempts).1 = true
            · constructor <;>
                simp [mountNonFlattened, hlf, hv, hmv, hc, hra, hmk,
                  List.countP_append, List.countP_cons, isLoopAttempt,
                  isMountAttempt, hl, hl0, hm, hm0, hcv.1, hcv.2.1]
            · constructor <;>
                simp [mountNonFlattened, hlf, hv, hmv, hc, hra, hmk,
                  List.countP_append, List.countP_cons, isLoopAttempt,
                  isMountAttempt, hl, hl0, hm, hm0, hcv.1, hcv.2.1]
      · by_cases hmk : (mountRetry env 0 kMountAttempts).1 = true
        · constructor <;>
            simp [mountNonFlattened, hlf, hv, hmv, hmk, List.countP_append,
              List.countP_cons, isLoopAttempt, isMountAttempt, hl, hl0, hm,
              hm0]
        · constructor <;>
            simp [mountNonFlattened, hlf, hv, hmv, hmk, List.countP_append,
              List.countP_cons, isLoopAttempt, isMountAttempt, hl, hl0, hm,
              hm0]

/-- C6: Every retry loop in mounting is bounded: at most
`kLoopDeviceSetupAttempts = 3` loop-creation attempts, failing with the
loop-creation error when all of them fail, and at most `kMountAttempts = 5`
ext4 mount attempts with a 50ms sleep after each failed attempt, failing
with the mount error when all of them fail; no retry continues past these
bounds. -/
theorem mountNonFlattened_bounded_retries (env : MountEnv)
    (apex : ApexFileData) (mp : String) (st : KState) :
    (mountNonFlattened env apex mp st).tr.countP isLoopAttempt ≤
        kLoopDeviceSetupAttempts ∧
    (mountNonFlattened env apex mp st).tr.countP isMountAttempt ≤
        kMountAttempts ∧
    ((∀ i, env.loopOk i = false) →
      (mountNonFlattened env apex mp st).status =
          .fail ("Could not create loop device for " ++ apex.path) ∧
      (mountNonFlattened env apex mp st).tr.countP isLoopAttempt =
          kLoopDeviceSetupAttempts) ∧
    (env.loopOk 1 = true → env.verityOk = true → env.dmCreateOk = true →
      env.dmPathOk = true → env.readAheadOk = true →
      (∀ c, env.mountOk c = false) →
      (mountNonFlattened env apex mp st).status =
          .fail ("Mounting failed for package " ++ apex.path) ∧
      (mountNonFlattened env apex mp st).tr.countP isMountAttempt =
          kMountAttempts ∧
      (mountNonFlattened env apex mp st).tr.countP isSleep50 =
          kMountAttempts) := by
  refine ⟨(mountNonFlattened_counts_le env apex mp st).1,
    (mountNonFlattened_counts_le env apex mp st).2, ?_, ?_⟩
  · intro h
    have hlr := createLoopRetry_all_fail env h
    unfold mountNonFlattened
    rw [hlr]
    simp [isLoopAttempt, kLoopDeviceSetupAttempts]
  · intro h1 hv hdc hdp hra hm
    have hmr := mountRetry_all_fail env hm
    have hcv1 := createVerityDevice_ok env
      (GetPackageId apex.name apex.version)
      { st with loops := env.loopName :: st.loops } hdc hdp
    have hcv := createVerityDevice_countP env
      (GetPackageId apex.name apex.version)
      { st with loops := env.loopName :: st.loops }
    unfold mountNonFlattened
    have hlr : createLoopRetry env 1 kLoopDeviceSetupAttempts =
        (true, [Ev.loopAttempt true, Ev.loopCreated env.loopName]) := by
      simp [createLoopRetry, h1]
    rw [hlr]
    by_cases hmv :
        (env.force || !(strStartsWith apex.path kApexPackageSystemDir)) = true
    · rcases hc : (createVerityDevice env
          (GetPackageId apex.name apex.version)
          { st with loops := env.loopName :: st.loops }) with ⟨o, st2, tr2⟩
      rw [hc] at hcv1 hcv
      simp only at hcv1
      simp only [hv, hmv, hc, hcv1, hmr]
      simp [isMountAttempt, isSleep50, isLoopAttempt, List.countP_append,
        hcv.2.1, hcv.2.2, kMountAttempts, hra]
    · simp only [hv, hmv, hmr]
      simp [isMountAttempt, isSleep50, kMountAttempts, hmv]

theorem createVerityDevice_not_mem (env : MountEnv) (n : String)
    (st : KState) (h : n ∉ st.dms) :
    createVerityDevice env n st =
      if env.dmCreateOk = false then (none, st, [])
      else if env.dmPathOk = false then
        (none, st, [Ev.dmCreated n, Ev.dmDeleted n])
      else (some (dmDevPath n), { st with dms := n :: st.dms },
        [Ev.dmCreated n]) := by
  by_cases h1 : env.dmCreateOk = false <;> by_cases h2 : env.dmPathOk = false <;>
    simp [createVerityDevice, h, h1, h2, List.erase_cons_head]

theorem createVerityDevice_db (env : MountEnv) (n : String) (st : KState) :
    (createVerityDevice env n st).2.1.db = st.db := by
  by_cases h : n ∈ st.dms <;> by_cases h1 : env.dmCreateOk = false <;>
    by_cases h2 : env.dmPathOk = false <;>
      simp [createVerityDevice, h, h1, h2]

/-- When the loop-creation retry succeeded, the trace of
`mountNonFlattened` starts with the loop retry trace. -/
theorem mountNonFlattened_tr_shape (env : MountEnv) (apex : ApexFileData)
    (mp : String) (st : KState)
    (hlf : (createLoopRetry env 1 kLoopDeviceSetupAttempts).1 = true) :
    ∃ rest, (mountNonFlattened env apex mp st).tr =
      (createLoopRetry env 1 kLoopDeviceSetupAttempts).2 ++ rest := by
  have hlf' : ¬((createLoopRetry env 1 kLoopDeviceSetupAttempts).1 = false) := by
    simp [hlf]
  by_cases hv : env.verityOk = false
  · exact ⟨[Ev.verityCheck false, Ev.loopReleased env.loopName],
      by simp [mountNonFlattened, hlf', hv]⟩
  · by_cases hmv :
        (env.force || !(strStartsWith apex.path kApexPackageSystemDir)) = true
    · rcases hc : (createVerityDevice env
          (GetPackageId apex.name apex.version)
          { st with loops := env.loopName :: st.loops }) with ⟨o, st2, tr2⟩
      rcases o with _ | devPath
      · exact ⟨Ev.verityCheck true ::
            (tr2 ++ [Ev.loopReleased env.loopName]),
          by simp [mountNonFlattened, hlf', hv, hmv, hc]⟩
      · by_cases hra : env.readAheadOk = false
        · exact ⟨Ev.verityCheck true :: (tr2 ++
              [Ev.dmDeleted (GetPackageId apex.name apex.version),
                Ev.loopReleased env.loopName]),
            by simp [mountNonFlattened, hlf', hv, hmv, hc, hra]⟩
        · by_cases hmk : (mountRetry env 0 kMountAttempts).1 = true
          · exact ⟨Ev.verityCheck true :: (tr2 ++
                ((mountRetry env 0 kMountAttempts).2 ++
                  [Ev.mounted mp devPath])),
              by simp [mountNonFlattened, hlf', hv, hmv, hc, hra, hmk]⟩
          · exact ⟨Ev.verityCheck true :: (tr2 ++
                ((mountRetry env 0 kMountAttempts).2 ++
                  [Ev.dmDeleted (GetPackageId apex.name apex.version),
                    Ev.loopReleased env.loopName])),
              by simp [mountNonFlattened, hlf', hv, hmv, hc, hra, hmk]⟩
    · by_cases hmk : (mountRetry env 0 kMountAttempts).1 = true
      · exact ⟨Ev.verityCheck true ::
            ((mountRetry env 0 kMountAttempts).2 ++
              [Ev.mounted mp env.loopName]),
          by simp [mountNonFlattened, hlf', hv, hmv, hmk]⟩
      · exact ⟨Ev.verityCheck true ::
            ((mountRetry env 0 kMountAttempts).2 ++
              [Ev.loopReleased env.loopName]),
          by simp [mountNonFlattened, hlf', hv, hmv, hmk]⟩

/-- C1 (amended): in `mountNonFlattened` the loop device is created before
the verity check — whenever a verity-check event is in the trace, the trace
decomposes as a prefix without verity events followed by the loop-creation
event; and when verity verification fails the operation is rejected and the
scoped loop device is released, so the loop, dm, and mount state are left
unchanged. -/
theorem mountNonFlattened_loop_before_verity (env : MountEnv)
    (apex : ApexFileData) (mp : String) (st : KState) :
    ((∃ b, Ev.verityCheck b ∈ (mountNonFlattened env apex mp st).tr) →
      ∃ pre post, (mountNonFlattened env apex mp st).tr =
          pre ++ Ev.loopCreated env.loopName :: post ∧
        ∀ e ∈ pre, isVerityEv e = false) ∧
    (env.verityOk = false →
      (mountNonFlattened env apex mp st).status ≠ .ok ∧
      (mountNonFlattened env apex mp st).st.loops = st.loops ∧
      (mountNonFlattened env apex mp st).st.dms = st.dms ∧
      (mountNonFlattened env apex mp st).st.mounts = st.mounts) := by
  constructor
  · rintro ⟨b, hb⟩
    by_cases hlf : (createLoopRetry env 1 kLoopDeviceSetupAttempts).1 = false
    · exfalso
      have htr : (mountNonFlattened env apex mp st).tr =
          (createLoopRetry env 1 kLoopDeviceSetupAttempts).2 := by
        simp [mountNonFlattened, hlf]
      rw [htr] at hb
      rcases createLoopRetry_only_loop_events env kLoopDeviceSetupAttempts 1
        (Ev.verityCheck b) hb with h | h | h <;> simp at h
    · have hlf' : (createLoopRetry env 1 kLoopDeviceSetupAttempts).1 = true := by
        revert hlf
        cases (createLoopRetry env 1 kLoopDeviceSetupAttempts).1 <;> simp
      obtain ⟨pre0, hpre0, hall⟩ :=
        createLoopRetry_success_shape env kLoopDeviceSetupAttempts 1 hlf'
      obtain ⟨rest, hrest⟩ :=
        mountNonFlattened_tr_shape env apex mp st hlf'
      refine ⟨pre0 ++ [Ev.loopAttempt true], rest, ?_, ?_⟩
      · rw [hrest, hpre0]
        simp
      · intro e he
        rcases List.mem_append.mp he with h | h
        · rw [hall e h]; rfl
        · simp at h
          rw [h]; rfl
  · intro hv
    by_cases hlf : (createLoopRetry env 1 kLoopDeviceSetupAttempts).1 = false
    · simp [mountNonFlattened, hlf]
    · simp [mountNonFlattened, hlf, hv, List.erase_cons_head]

/-- C1 counterexample: with a cooperative kernel but bad verity data, the
operation is rejected, yet a loop device was created first — the trace
shows the creation preceding the (failing) verity check, contradicting
"rejected with no loop device having been created". -/
theorem mountNonFlattened_loop_created_despite_verity_reject :
    (mountNonFlattened verityFailEnv cApex
        (GetPackageMountPoint "com.test" 1) cSt).status ≠ Status.ok ∧
    Ev.loopCreated "/dev/block/loop3" ∈
      (mountNonFlattened verityFailEnv cApex
        (GetPackageMountPoint "com.test" 1) cSt).tr ∧
    (mountNonFlattened verityFailEnv cApex
        (GetPackageMountPoint "com.test" 1) cSt).tr =
      [Ev.loopAttempt true, Ev.loopCreated "/dev/block/loop3",
        Ev.verityCheck false, Ev.loopReleased "/dev/block/loop3"] := by
  refine ⟨?_, ?_, ?_⟩ <;> decide

theorem mountNonFlattened_fail_st (env : MountEnv) (apex : ApexFileData)
    (mp : String) (st : KState)
    (h : GetPackageId apex.name apex.version ∉ st.dms) :
    (mountNonFlattened env apex mp st).status ≠ .ok →
      (mountNonFlattened env apex mp st).st = st := by
  intro hne
  have h1 : GetPackageId apex.name apex.version ∉
      ({ st with loops := env.loopName :: st.loops } : KState).dms := h
  have hcv := createVerityDevice_not_mem env
    (GetPackageId apex.name apex.version)
    { st with loops := env.loopName :: st.loops } h1
  by_cases hlf : (createLoopRetry env 1 kLoopDeviceSetupAttempts).1 = false
  · simp [mountNonFlattened, hlf]
  · by_cases hv : env.verityOk = false
    · simp [mountNonFlattened, hlf, hv, List.erase_cons_head]
    · by_cases hmv :
          (env.force || !(strStartsWith apex.path kApexPackageSystemDir)) = true
      · by_cases hdc : env.dmCreateOk = false
        · rw [hdc] at hcv
          simp only [if_true, if_pos rfl] at hcv
          simp [mountNonFlattened, hlf, hv, hmv, hcv,
            List.erase_cons_head]
        · by_cases hdp : env.dmPathOk = false
          · simp only [hdc, hdp] at hcv
            simp at hcv
            simp [mountNonFlattened, hlf, hv, hmv, hcv,
              List.erase_cons_head]
          · simp only [hdc, hdp] at hcv
            simp at hcv
            by_cases hra : env.readAheadOk = false
            · simp [mountNonFlattened, hlf, hv, hmv, hcv, hra,
                List.erase_cons_head]
            · by_cases hmk : (mountRetry env 0 kMountAttempts).1 = true
              · exfalso
                apply hne
                simp [mountNonFlattened, hlf, hv, hmv, hcv, hra, hmk]
              · simp [mountNonFlattened, hlf, hv, hmv, hcv, hra, hmk,
                  List.erase_cons_head]
      · by_cases hmk : (mountRetry env 0 kMountAttempts).1 = true
        · exfalso
          apply hne
          simp [mountNonFlattened, hlf, hv, hmv, hmk]
        · simp [mountNonFlattened, hlf, hv, hmv, hmk, List.erase_cons_head]

theorem mountNonFlattened_db (env : MountEnv) (apex : ApexFileData)
    (mp : String) (st : KState) :
    (mountNonFlattened env apex mp st).st.db = st.db := by
  have hdb := createVerityDevice_db env
    (GetPackageId apex.name apex.version)
    { st with loops := env.loopName :: st.loops }
  by_cases hlf : (createLoopRetry env 1 kLoopDeviceSetupAttempts).1 = false
  · simp [mountNonFlattened, hlf]
  · by_cases hv : env.verityOk = false
    · simp [mountNonFlattened, hlf, hv]
    · by_cases hmv :
          (env.force || !(strStartsWith apex.path kApexPackageSystemDir)) = true
      · rcases hc : (createVerityDevice env
            (GetPackageId apex.name apex.version)
            { st with loops := env.loopName :: st.loops }) with ⟨o, st2, tr2⟩
        rw [hc] at hdb
        simp only at hdb
        rcases o with _ | devPath
        · simp [mountNonFlattened, hlf, hv, hmv, hc, hdb]
        · by_cases hra : env.readAheadOk = false
          · simp [mountNonFlattened, hlf, hv, hmv, hc, hra, hdb]
          · by_cases hmk : (mountRetry env 0 kMountAttempts).1 = true
            · simp [mountNonFlattened, hlf, hv, hmv, hc, hra, hmk, hdb]
            · simp [mountNonFlattened, hlf, hv, hmv, hc, hra, hmk, hdb]
      · by_cases hmk : (mountRetry env 0 kMountAttempts).1 = true
        · simp [mountNonFlattened, hlf, hv, hmv, hmk]
        · simp [mountNonFlattened, hlf, hv, hmv, hmk]

theorem mountNonFlattened_data_path (env : MountEnv) (apex : ApexFileData)
    (mp : String) (st : KState) :
    (mountNonFlattened env apex mp st).data.full_path = apex.path := by
  by_cases hlf : (createLoopRetry env 1 kLoopDeviceSetupAttempts).1 = false
  · simp [mountNonFlattened, hlf]
  · by_cases hv : env.verityOk = false
    · simp [mountNonFlattened, hlf, hv]
    · by_cases hmv :
          (env.force || !(strStartsWith apex.path kApexPackageSystemDir)) = true
      · rcases hc : (createVerityDevice env
            (GetPackageId apex.name apex.version)
            { st with loops := env.loopName :: st.loops }) with ⟨o, st2, tr2⟩
        rcases o with _ | devPath
        · simp [mountNonFlattened, hlf, hv, hmv, hc]
        · by_cases hra : env.readAheadOk = false
          · simp [mountNonFlattened, hlf, hv, hmv, hc, hra]
          · by_cases hmk : (mountRetry env 0 kMountAttempts).1 = true
            · simp [mountNonFlattened, hlf, hv, hmv, hc, hra, hmk]
            · simp [mountNonFlattened, hlf, hv, hmv, hc, hra, hmk]
      · by_cases hmk : (mountRetry env 0 kMountAttempts).1 = true
        · simp [mountNonFlattened, hlf, hv, hmv, hmk]
        · simp [mountNonFlattened, hlf, hv, hmv, hmk]

theorem mountFlattened_fail_st (env : MountEnv) (apex : ApexFileData)
    (mp : String) (st : KState) :
    (mountFlattened env apex mp st).status ≠ .ok →
      (mountFlattened env apex mp st).st = st := by
  intro hne
  by_cases hsw : strStartsWith apex.path kApexPackageSystemDir = true
  · by_cases hb : env.bindOk = true
    · exfalso; apply hne; simp [mountFlattened, hsw, hb]
    · simp [mountFlattened, hsw, hb]
  · simp [mountFlattened, hsw]

theorem mountFlattened_db (env : MountEnv) (apex : ApexFileData)
    (mp : String) (st : KState) :
    (mountFlattened env apex mp st).st.db = st.db := by
  by_cases hsw : strStartsWith apex.path kApexPackageSystemDir = true <;>
    by_cases hb : env.bindOk = true <;> simp [mountFlattened, hsw, hb]

theorem mountFlattened_data_path (env : MountEnv) (apex : ApexFileData)
    (mp : String) (st : KState) :
    (mountFlattened env apex mp st).data.full_path = apex.path := by
  by_cases hsw : strStartsWith apex.path kApexPackageSystemDir = true <;>
    by_cases hb : env.bindOk = true <;> simp [mountFlattened, hsw, hb]

/-- C3: `MountPackage` is transactional: on any failure (mkdir, flattened
check, loop creation, verity computation, dm-verity creation, read-ahead,
or the ext4 mount) the registry gains no record and the whole kernel state
— including the mount point directory created at the start and the
partially built loop and dm handles — is restored; a registry record is
emitted only at the successful end of the mount sequence. -/
theorem MountPackage_transactional (env : MountEnv) (apex : ApexFileData)
    (mp : String) (st : KState)
    (h : GetPackageId apex.name apex.version ∉ st.dms) :
    ((MountPackage env apex mp st).1 ≠ .ok →
      (MountPackage env apex mp st).2.1 = st) ∧
    ((MountPackage env apex mp st).1 = .ok →
      ∃ d, d.full_path = apex.path ∧
        (MountPackage env apex mp st).2.1.db =
          AddMountedApex st.db apex.name false d) := by
  by_cases hmk : env.mkdirOk = false
  · constructor
    · intro _; simp [MountPackage, hmk]
    · intro hok; simp [MountPackage, hmk] at hok
  · by_cases hfl : apex.flattened = true
    · rcases hs : (mountFlattened env apex mp
          { st with dirs := mp :: st.dirs }).status with _ | e
      · constructor
        · intro hne
          exfalso; apply hne
          simp [MountPackage, hmk, hfl, hs]
        · intro _
          refine ⟨(mountFlattened env apex mp
              { st with dirs := mp :: st.dirs }).data,
            mountFlattened_data_path env apex mp _, ?_⟩
          have hdb := mountFlattened_db env apex mp
            { st with dirs := mp :: st.dirs }
          simp only at hdb
          simp [MountPackage, hmk, hfl, hs, hdb]
      · have hst := mountFlattened_fail_st env apex mp
          { st with dirs := mp :: st.dirs } (by simp [hs])
        constructor
        · intro _
          simp [MountPackage, hmk, hfl, hs, hst, List.erase_cons_head]
        · intro hok
          simp [MountPackage, hmk, hfl, hs] at hok
    · rcases hs : (mountNonFlattened env apex mp
          { st with dirs := mp :: st.dirs }).status with _ | e
      · constructor
        · intro hne
          exfalso; apply hne
          simp [MountPackage, hmk, hfl, hs]
        · intro _
          refine ⟨(mountNonFlattened env apex mp
              { st with dirs := mp :: st.dirs }).data,
            mountNonFlattened_data_path env apex mp _, ?_⟩
          have hdb := mountNonFlattened_db env apex mp
            { st with dirs := mp :: st.dirs }
          simp only at hdb
          simp [MountPackage, hmk, hfl, hs, hdb]
      · have hst := mountNonFlattened_fail_st env apex mp
          { st with dirs := mp :: st.dirs } h (by simp [hs])
        constructor
        · intro _
          simp [MountPackage, hmk, hfl, hs, hst, List.erase_cons_head]
        · intro hok
          simp [MountPackage, hmk, hfl, hs] at hok

/-- C3 witness: at a concrete input whose ext4 mount always fails, the
state is fully restored; at a concrete succeeding input a record is
emitted. -/
theorem MountPackage_transactional_witness :
    (GetPackageId cApex.name cApex.version ∉ cSt.dms ∧
      (MountPackage mountFailEnv cApex (GetPackageMountPoint "com.test" 1)
          cSt).2.1 = cSt) ∧
    ∃ d, d.full_path = cApex.path ∧
      (MountPackage goodMountEnv cApex (GetPackageMountPoint "com.test" 1)
          cSt).2.1.db = AddMountedApex cSt.db cApex.name false d := by
  constructor
  · exact ⟨by decide,
      (MountPackage_transactional mountFailEnv cApex
        (GetPackageMountPoint "com.test" 1) cSt (by decide)).1 (by decide)⟩
  · exact (MountPackage_transactional goodMountEnv cApex
      (GetPackageMountPoint "com.test" 1) cSt (by decide)).2 (by decide)

/-- C6 witness: with every loop-creation attempt failing the operation
fails with the loop error after exactly 3 attempts; with every ext4 mount
attempt failing it fails with the mount error after exactly 5 attempts and
5 sleeps. -/
theorem mountNonFlattened_bounded_retries_witness :
    ((mountNonFlattened loopFailEnv cApex
        (GetPackageMountPoint "com.test" 1) cSt).status =
        .fail ("Could not create loop device for " ++ cApex.path) ∧
      (mountNonFlattened loopFailEnv cApex
          (GetPackageMountPoint "com.test" 1) cSt).tr.countP isLoopAttempt =
        kLoopDeviceSetupAttempts) ∧
    ((mountNonFlattened mountFailEnv cApex
        (GetPackageMountPoint "com.test" 1) cSt).status =
        .fail ("Mounting failed for package " ++ cApex.path) ∧
      (mountNonFlattened mountFailEnv cApex
          (GetPackageMountPoint "com.test" 1) cSt).tr.countP isMountAttempt =
        kMountAttempts ∧
      (mountNonFlattened mountFailEnv cApex
          (GetPackageMountPoint "com.test" 1) cSt).tr.countP isSleep50 =
        kMountAttempts) := by
  constructor
  · exact (mountNonFlattened_bounded_retries loopFailEnv cApex
      (GetPackageMountPoint "com.test" 1) cSt).2.2.1 (fun i => rfl)
  · exact (mountNonFlattened_bounded_retries mountFailEnv cApex
      (GetPackageMountPoint "com.test" 1) cSt).2.2.2 rfl rfl rfl rfl rfl
      (fun c => rfl)

/-- C1 witness: a concrete run in which the verity check happens (and
fails): the trace decomposes with the loop creation before every verity
event, and the loop/dm/mount state is unchanged. -/
theorem mountNonFlattened_loop_before_verity_witness :
    (∃ pre post, (mountNonFlattened verityFailEnv cApex
        (GetPackageMountPoint "com.test" 1) cSt).tr =
          pre ++ Ev.loopCreated verityFailEnv.loopName :: post ∧
        ∀ e ∈ pre, isVerityEv e = false) ∧
    ((mountNonFlattened verityFailEnv cApex
        (GetPackageMountPoint "com.test" 1) cSt).status ≠ .ok ∧
      (mountNonFlattened verityFailEnv cApex
          (GetPackageMountPoint "com.test" 1) cSt).st.loops = cSt.loops ∧
      (mountNonFlattened verityFailEnv cApex
          (GetPackageMountPoint "com.test" 1) cSt).st.dms = cSt.dms ∧
      (mountNonFlattened verityFailEnv cApex
          (GetPackageMountPoint "com.test" 1) cSt).st.mounts = cSt.mounts) := by
  constructor
  · exact (mountNonFlattened_loop_before_verity verityFailEnv cApex
      (GetPackageMountPoint "com.test" 1) cSt).1 ⟨false, by decide⟩
  · exact (mountNonFlattened_loop_before_verity verityFailEnv cApex
      (GetPackageMountPoint "com.test" 1) cSt).2 rfl

/-- C7: for a non-flattened package, the mounted block device sits on a
dm-verity node iff the force flag is set or the source path is not under
the system partition; and the verity/signature verification runs (and is
enforced) in all cases, including system-partition packages. -/
theorem mountNonFlattened_verity_policy (env : MountEnv)
    (apex : ApexFileData) (mp : String) (st : KState)
    (h : GetPackageId apex.name apex.version ∉ st.dms) :
    ((mountNonFlattened env apex mp st).status = .ok →
      Ev.verityCheck true ∈ (mountNonFlattened env apex mp st).tr ∧
      (GetPackageId apex.name apex.version ∈
          (mountNonFlattened env apex mp st).st.dms ↔
        (env.force || !(strStartsWith apex.path kApexPackageSystemDir)) = true)) ∧
    (env.verityOk = false →
      (mountNonFlattened env apex mp st).status ≠ .ok) := by
  have h1 : GetPackageId apex.name apex.version ∉
      ({ st with loops := env.loopName :: st.loops } : KState).dms := h
  have hcv := createVerityDevice_not_mem env
    (GetPackageId apex.name apex.version)
    { st with loops := env.loopName :: st.loops } h1
  constructor
  · intro hok
    by_cases hlf : (createLoopRetry env 1 kLoopDeviceSetupAttempts).1 = false
    · simp [mountNonFlattened, hlf] at hok
    · by_cases hv : env.verityOk = false
      · simp [mountNonFlattened, hlf, hv] at hok
      · by_cases hmv :
            (env.force || !(strStartsWith apex.path kApexPackageSystemDir)) = true
        · by_cases hdc : env.dmCreateOk = false
          · rw [hdc] at hcv
            simp only [if_pos rfl] at hcv
            simp [mountNonFlattened, hlf, hv, hmv, hcv] at hok
          · by_cases hdp : env.dmPathOk = false
            · simp only [hdc, hdp] at hcv
              simp at hcv
              simp [mountNonFlattened, hlf, hv, hmv, hcv] at hok
            · simp only [hdc, hdp] at hcv
              simp at hcv
              by_cases hra : env.readAheadOk = false
              · simp [mountNonFlattened, hlf, hv, hmv, hcv, hra] at hok
              · by_cases hmm : (mountRetry env 0 kMountAttempts).1 = true
                · constructor
                  · simp [mountNonFlattened, hlf, hv, hmv, hcv, hra, hmm]
                  · simp [mountNonFlattened, hlf, hv, hmv, hcv, hra, hmm]
                · simp [mountNonFlattened, hlf, hv, hmv, hcv, hra, hmm]
                    at hok
        · by_cases hmm : (mountRetry env 0 kMountAttempts).1 = true
          · constructor
            · simp [mountNonFlattened, hlf, hv, hmv, hmm]
            · simp [mountNonFlattened, hlf, hv, hmv, hmm, h]
          · simp [mountNonFlattened, hlf, hv, hmv, hmm] at hok
  · intro hv
    by_cases hlf : (createLoopRetry env 1 kLoopDeviceSetupAttempts).1 = false
    · simp [mountNonFlattened, hlf]
    · simp [mountNonFlattened, hlf, hv]

/-- C7 witness: concrete run of a non-system-partition package with the
force flag clear: the mount succeeds, the verity check ran, and a dm node
for the package id is live. -/
theorem mountNonFlattened_verity_policy_witness :
    Ev.verityCheck true ∈ (mountNonFlattened goodMountEnv cApex
        (GetPackageMountPoint "com.test" 1) cSt).tr ∧
    (GetPackageId cApex.name cApex.version ∈
        (mountNonFlattened goodMountEnv cApex
          (GetPackageMountPoint "com.test" 1) cSt).st.dms ↔
      (goodMountEnv.force ||
        !(strStartsWith cApex.path kApexPackageSystemDir)) = true) := by
  exact (mountNonFlattened_verity_policy goodMountEnv cApex
    (GetPackageMountPoint "com.test" 1) cSt (by decide)).1 (by decide)

/-- C9: a flattened package whose source path is not under the read-only
system partition directory is rejected with no bind mount performed and no
state change; a bind mount is created only when the path is under the
system partition. -/
theorem mountFlattened_system_partition_only (env : MountEnv)
    (apex : ApexFileData) (mp : String) (st : KState) :
    (strStartsWith apex.path kApexPackageSystemDir = false →
      (mountFlattened env apex mp st).status =
        .fail ("Cannot activate flattened APEX " ++ apex.path) ∧
      (mountFlattened env apex mp st).st = st ∧
      (mountFlattened env apex mp st).tr = []) ∧
    ((mountFlattened env apex mp st).st.binds ≠ st.binds →
      strStartsWith apex.path kApexPackageSystemDir = true) := by
  by_cases hsw : strStartsWith apex.path kApexPackageSystemDir = true
  · constructor
    · intro hcontra
      rw [hsw] at hcontra
      cases hcontra
    · intro _; exact hsw
  · constructor
    · intro _
      simp [mountFlattened, hsw]
    · intro hb
      exfalso; apply hb
      simp [mountFlattened, hsw]

/-- C9 witness: a flattened package under `/data` is rejected with the
state unchanged. -/
theorem mountFlattened_system_partition_only_witness :
    (mountFlattened goodMountEnv ⟨cPath, "com.test", 1, true⟩
        (GetPackageMountPoint "com.test" 1) cSt).status =
      .fail ("Cannot activate flattened APEX " ++ cPath) ∧
    (mountFlattened goodMountEnv ⟨cPath, "com.test", 1, true⟩
        (GetPackageMountPoint "com.test" 1) cSt).st = cSt ∧
    (mountFlattened goodMountEnv ⟨cPath, "com.test", 1, true⟩
        (GetPackageMountPoint "com.test" 1) cSt).tr = [] := by
  exact (mountFlattened_system_partition_only goodMountEnv
    ⟨cPath, "com.test", 1, true⟩ (GetPackageMountPoint "com.test" 1)
    cSt).1 (by decide)

/-- C2 counterexample: with no registry record at all for the package
(registry empty), `deactivatePackage` does not fail with `NotFound` — it
succeeds, and it destroys all pre-existing loop devices rather than
releasing only a record's loop device. -/
theorem deactivatePackage_no_registry_lookup_cex :
    cStWithLoops.db = [] ∧
    (deactivatePackage goodDeactEnv cPath cStWithLoops).1 = Status.ok ∧
    (deactivatePackage goodDeactEnv cPath cStWithLoops).2.1.loops = [] := by
  refine ⟨rfl, ?_, ?_⟩ <;> decide

/-- C2 (amended): `deactivatePackage(p)` performs no registry lookup: for
any registry contents — including no record for `(name, p)` and a record
marked latest — it unmounts the name-only alias mount point and the
versioned mount point, destroys all loop devices (not only that record's)
for a non-flattened package, and on success removes the `(name, p)` record
from the registry. -/
theorem deactivatePackage_unconditional (env : DeactEnv) (full_path : String)
    (st : KState) (f : FileInfo)
    (hf : env.files full_path = some f)
    (hfl : f.flattened = false)
    (hua : env.umountActiveOk = true)
    (hup : env.umountPkgOk = true)
    (hrp : env.rmdirPkgOk = true) :
    (deactivatePackage env full_path st).1 = .ok ∧
    (deactivatePackage env full_path st).2.1.loops = [] ∧
    (deactivatePackage env full_path st).2.1.db =
      RemoveMountedApex st.db f.name full_path ∧
    (deactivatePackage env full_path st).2.1.mounts =
      (detachAt (detachAt st (GetActiveMountPoint f.name))
        (GetPackageMountPoint f.name f.version)).mounts ∧
    (deactivatePackage env full_path st).2.1.binds =
      (detachAt (detachAt st (GetActiveMountPoint f.name))
        (GetPackageMountPoint f.name f.version)).binds := by
  have hopen : openApex env.files full_path =
      some ⟨full_path, f.name, f.version, f.flattened⟩ := by
    simp [openApex, hf]
  by_cases hra : env.rmdirActiveOk = true <;>
    simp [deactivatePackage, hopen, deactivatePackageImpl, hua, hup, hrp,
      hra, hfl, detachAt]

/-- C2 witness: concrete run against a registry whose only record for the
package is marked latest — the call still succeeds (rather than failing
with `IsActive`), destroys all loops, and removes the record. -/
theorem deactivatePackage_unconditional_witness :
    (deactivatePackage goodDeactEnv cPath cStLatest).1 = .ok ∧
    (deactivatePackage goodDeactEnv cPath cStLatest).2.1.loops = [] ∧
    (deactivatePackage goodDeactEnv cPath cStLatest).2.1.db =
      RemoveMountedApex cStLatest.db cInfo.name cPath ∧
    (deactivatePackage goodDeactEnv cPath cStLatest).2.1.mounts =
      (detachAt (detachAt cStLatest (GetActiveMountPoint cInfo.name))
        (GetPackageMountPoint cInfo.name cInfo.version)).mounts ∧
    (deactivatePackage goodDeactEnv cPath cStLatest).2.1.binds =
      (detachAt (detachAt cStLatest (GetActiveMountPoint cInfo.name))
        (GetPackageMountPoint cInfo.name cInfo.version)).binds := by
  exact deactivatePackage_unconditional goodDeactEnv cPath cStLatest cInfo
    (by decide) rfl rfl rfl rfl

theorem foldl_scanStep_id (files : String → Option FileInfo) (name : String)
    (nv : Nat) :
    ∀ (db : List DbEntry) (acc : ScanAcc), (∀ e ∈ db, e.name ≠ name) →
      db.foldl (scanStep files name nv) acc = acc := by
  intro db
  induction db with
  | nil => intro acc _; rfl
  | cons e rest ih =>
    intro acc h
    have he : e.name ≠ name := h e (by simp)
    simp only [List.foldl_cons]
    rw [show scanStep files name nv acc e = acc from by simp [scanStep, he]]
    exact ih acc (fun x hx => h x (by simp [hx]))

theorem SetLatest_no_name (db : List DbEntry) (name p : String)
    (h : ∀ e ∈ db, e.name ≠ name) : SetLatest db name p = db := by
  induction db with
  | nil => rfl
  | cons e rest ih =>
    have he : e.name ≠ name := h e (by simp)
    simp only [SetLatest, List.map_cons]
    rw [if_neg he]
    have := ih (fun x hx => h x (by simp [hx]))
    simp only [SetLatest] at this
    rw [this]

theorem mountNonFlattened_ok_strong (env : MountEnv) (apex : ApexFileData)
    (mp : String) (st : KState)
    (hl : env.loopOk 1 = true) (hv : env.verityOk = true)
    (hdc : env.dmCreateOk = true) (hdp : env.dmPathOk = true)
    (hra : env.readAheadOk = true) (hm : env.mountOk 0 = true) :
    (mountNonFlattened env apex mp st).status = .ok ∧
    (mountNonFlattened env apex mp st).st.db = st.db ∧
    (mountNonFlattened env apex mp st).data = ⟨env.loopName, apex.path⟩ := by
  have hlr : createLoopRetry env 1 kLoopDeviceSetupAttempts =
      (true, [Ev.loopAttempt true, Ev.loopCreated env.loopName]) := by
    simp [createLoopRetry, hl]
  have hmr : mountRetry env 0 kMountAttempts =
      (true, [Ev.mountAttempt true]) := by
    simp [mountRetry, hm, kMountAttempts]
  by_cases hmv :
      (env.force || !(strStartsWith apex.path kApexPackageSystemDir)) = true
  · rcases hc : (createVerityDevice env
        (GetPackageId apex.name apex.version)
        { st with loops := env.loopName :: st.loops }) with ⟨o, st2, tr2⟩
    have ho := createVerityDevice_ok env
      (GetPackageId apex.name apex.version)
      { st with loops := env.loopName :: st.loops } hdc hdp
    have hdb := createVerityDevice_db env
      (GetPackageId apex.name apex.version)
      { st with loops := env.loopName :: st.loops }
    rw [hc] at ho hdb
    simp only at ho hdb
    subst ho
    refine ⟨?_, ?_, ?_⟩ <;>
      simp [mountNonFlattened, hlr, hv, hmv, hc, hra, hmr, hdb]
  · refine ⟨?_, ?_, ?_⟩ <;>
      simp [mountNonFlattened, hlr, hv, hmv, hmr]

theorem MountPackage_ok_strong (env : MountEnv) (apex : ApexFileData)
    (mp : String) (st : KState)
    (hmk : env.mkdirOk = true) (hfl : apex.flattened = false)
    (hl : env.loopOk 1 = true) (hv : env.verityOk = true)
    (hdc : env.dmCreateOk = true) (hdp : env.dmPathOk = true)
    (hra : env.readAheadOk = true) (hm : env.mountOk 0 = true) :
    (MountPackage env apex mp st).1 = .ok ∧
    (MountPackage env apex mp st).2.1.db =
      AddMountedApex st.db apex.name false ⟨env.loopName, apex.path⟩ := by
  have hs := mountNonFlattened_ok_strong env apex mp
    { st with dirs := mp :: st.dirs } hl hv hdc hdp hra hm
  constructor <;>
    simp [MountPackage, hmk, hfl, hs.1, hs.2.1, hs.2.2]

/-- C5 counterexample: when the first activation's latest-alias bind mount
fails (which `activatePackage` treats as non-fatal, still returning
success), a second `activatePackage` of the same path also returns success
instead of failing with the already-active error. -/
theorem activatePackage_twice_bind_fail_cex :
    (activatePackage bindFailActEnv cPath cSt).1 = Status.ok ∧
    (activatePackage bindFailActEnv cPath
        (activatePackage bindFailActEnv cPath cSt).2.1).1 = Status.ok := by
  constructor <;> decide

theorem SetLatest_append_single (db : List DbEntry) (name p : String)
    (d : MountedApexData) (h : ∀ e ∈ db, e.name ≠ name)
    (hd : d.full_path = p) :
    SetLatest (db ++ [⟨name, d, false⟩]) name p = db ++ [⟨name, d, true⟩] := by
  unfold SetLatest
  rw [List.map_append]
  congr 1
  · have := SetLatest_no_name db name p h
    simpa [SetLatest] using this
  · simp [hd]

/-- Characterization of `activatePackage` on a package that is not in the
registry at all: it mounts, bind-mounts the latest alias, and marks the
record latest. -/
theorem activatePackage_fresh (env : ActEnv) (p : String) (st : KState)
    (apexD : ApexFileData) (hopen : openApex env.files p = some apexD)
    (hscan : activateScan env.files apexD.name apexD.version st.db = {})
    (hMok : (MountPackage env.mnt apexD
      (GetPackageMountPoint apexD.name apexD.version) st).1 = .ok)
    (hb : env.bindLatestOk = true) :
    activatePackage env p st =
      (.ok,
        { (MountPackage env.mnt apexD
            (GetPackageMountPoint apexD.name apexD.version) st).2.1 with
          binds := (GetActiveMountPoint apexD.name,
              GetPackageMountPoint apexD.name apexD.version) ::
            (MountPackage env.mnt apexD
              (GetPackageMountPoint apexD.name apexD.version) st).2.1.binds,
          db := SetLatest (MountPackage env.mnt apexD
              (GetPackageMountPoint apexD.name apexD.version) st).2.1.db
            apexD.name p },
        (MountPackage env.mnt apexD
            (GetPackageMountPoint apexD.name apexD.version) st).2.2 ++
          [Ev.bindMounted (GetActiveMountPoint apexD.name)
            (GetPackageMountPoint apexD.name apexD.version)]) := by
  simp [activatePackage, hopen, hscan, hMok, hb]

/-- Characterization of `activatePackage` when the scan finds the version
active: it fails before any mutation. -/
theorem activatePackage_already (env : ActEnv) (p : String) (st : KState)
    (apexD : ApexFileData) (hopen : openApex env.files p = some apexD)
    (hscan : (activateScan env.files apexD.name
      apexD.version st.db).version_found_active = true) :
    activatePackage env p st =
      (.fail "Package is already active.", st, []) := by
  simp [activatePackage, hopen, hscan]

/-- C5 (amended): after an `activatePackage(p)` in which every step —
including the latest-alias bind mount — succeeded, a second
`activatePackage(p)` fails with "Package is already active." and leaves
the registry and all mount/loop/dm state exactly as the first call left
it. -/
theorem activatePackage_second_already_active (env : ActEnv) (p : String)
    (st : KState) (f : FileInfo)
    (hf : env.files p = some f)
    (hfl : f.flattened = false)
    (hmk : env.mnt.mkdirOk = true)
    (hl : env.mnt.loopOk 1 = true)
    (hv : env.mnt.verityOk = true)
    (hdc : env.mnt.dmCreateOk = true)
    (hdp : env.mnt.dmPathOk = true)
    (hra : env.mnt.readAheadOk = true)
    (hm : env.mnt.mountOk 0 = true)
    (hb : env.bindLatestOk = true)
    (hdb : ∀ e ∈ st.db, e.name ≠ f.name) :
    (activatePackage env p st).1 = .ok ∧
    (activatePackage env p (activatePackage env p st).2.1).1 =
      .fail "Package is already active." ∧
    (activatePackage env p (activatePackage env p st).2.1).2.1 =
      (activatePackage env p st).2.1 := by
  have hopen : openApex env.files p =
      some ⟨p, f.name, f.version, f.flattened⟩ := by
    simp [openApex, hf]
  have hscan1 : activateScan env.files f.name f.version st.db = {} :=
    foldl_scanStep_id env.files f.name f.version st.db {} hdb
  have hMP := MountPackage_ok_strong env.mnt ⟨p, f.name, f.version, f.flattened⟩
    (GetPackageMountPoint f.name f.version) st hmk hfl hl hv hdc hdp hra hm
  have hr1 := activatePackage_fresh env p st ⟨p, f.name, f.version, f.flattened⟩
    hopen hscan1 hMP.1 hb
  have hfirst1 : (activatePackage env p st).1 = .ok := by rw [hr1]
  have hdb1 : (activatePackage env p st).2.1.db =
      st.db ++ [⟨f.name, ⟨env.mnt.loopName, p⟩, true⟩] := by
    rw [hr1]
    show SetLatest (MountPackage env.mnt ⟨p, f.name, f.version, f.flattened⟩
        (GetPackageMountPoint f.name f.version) st).2.1.db f.name p = _
    rw [hMP.2]
    exact SetLatest_append_single st.db f.name p ⟨env.mnt.loopName, p⟩ hdb rfl
  have hscan2 : activateScan env.files f.name f.version
      ((activatePackage env p st).2.1).db = ⟨true, true, true, true⟩ := by
    rw [hdb1]
    unfold activateScan
    rw [List.foldl_append,
      foldl_scanStep_id env.files f.name f.version st.db {} hdb]
    simp [scanStep, hf]
  have hsec := activatePackage_already env p (activatePackage env p st).2.1
    ⟨p, f.name, f.version, f.flattened⟩ hopen (by rw [hscan2])
  exact ⟨hfirst1, by rw [hsec], by rw [hsec]⟩

/-- C5 witness: concrete fully-successful activation followed by a second
activation of the same path. -/
theorem activatePackage_second_already_active_witness :
    (activatePackage goodActEnv cPath cSt).1 = .ok ∧
    (activatePackage goodActEnv cPath
        (activatePackage goodActEnv cPath cSt).2.1).1 =
      .fail "Package is already active." ∧
    (activatePackage goodActEnv cPath
        (activatePackage goodActEnv cPath cSt).2.1).2.1 =
      (activatePackage goodActEnv cPath cSt).2.1 := by
  exact activatePackage_second_already_active goodActEnv cPath cSt cInfo
    (by decide) rfl rfl rfl rfl rfl rfl rfl rfl rfl
    (by intro e he; simp [cSt] at he)

theorem stageLoop_inv (env : StageEnv) (link : Bool) :
    ∀ (paths : List String) (sf fs0 sp : List String),
      sf.Nodup → (∀ d ∈ sf, d ∉ fs0) →
      (∀ q ∈ paths, ∀ fD, openApex env.files q = some fD →
        destPathOf fD.name fD.version ∉ fs0) →
      (stageLoop env link paths (sf ++ fs0) sf sp).2.2.1.Nodup ∧
      (∀ d ∈ (stageLoop env link paths (sf ++ fs0) sf sp).2.2.1, d ∉ fs0) ∧
      (stageLoop env link paths (sf ++ fs0) sf sp).2.1 =
        (stageLoop env link paths (sf ++ fs0) sf sp).2.2.1 ++ fs0 := by
  intro paths
  induction paths with
  | nil =>
    intro sf fs0 sp hnd hdisj _
    exact ⟨hnd, hdisj, rfl⟩
  | cons p rest ih =>
    intro sf fs0 sp hnd hdisj hpaths
    rcases ho : openApex env.files p with _ | fD
    · have heq : stageLoop env link (p :: rest) (sf ++ fs0) sf sp =
          (.fail ("Failed to open package " ++ p), sf ++ fs0, sf, sp) := by
        simp [stageLoop, ho]
      rw [heq]
      exact ⟨hnd, hdisj, rfl⟩
    · have hdest : destPathOf fD.name fD.version ∉ fs0 :=
        hpaths p (by simp) fD ho
      have hrest : ∀ q ∈ rest, ∀ gD, openApex env.files q = some gD →
          destPathOf gD.name gD.version ∉ fs0 :=
        fun q hq => hpaths q (by simp [hq])
      have hconsNodup : destPathOf fD.name fD.version ∉ sf →
          (destPathOf fD.name fD.version :: sf).Nodup :=
        fun hx => List.nodup_cons.mpr ⟨hx, hnd⟩
      have hconsDisj : ∀ d ∈ destPathOf fD.name fD.version :: sf,
          d ∉ fs0 := by
        intro d hd
        rcases List.mem_cons.mp hd with h | h
        · rw [h]; exact hdest
        · exact hdisj d h
      by_cases hlink : link = true
      · by_cases hcnd : (env.linkOkOf p = true ∧
            destPathOf fD.name fD.version ∉ sf ++ fs0)
        · have hnsf : destPathOf fD.name fD.version ∉ sf :=
            fun hx => hcnd.2 (List.mem_append.mpr (Or.inl hx))
          have hins : insertIfAbsent (destPathOf fD.name fD.version) sf =
              destPathOf fD.name fD.version :: sf := by
            simp [insertIfAbsent, hnsf]
          have heq : stageLoop env link (p :: rest) (sf ++ fs0) sf sp =
              stageLoop env link rest
                ((destPathOf fD.name fD.version :: sf) ++ fs0)
                (destPathOf fD.name fD.version :: sf)
                (insertIfAbsent fD.name sp) := by
            simp [stageLoop, ho, hlink, hcnd, hins]
          rw [heq]
          exact ih (destPathOf fD.name fD.version :: sf) fs0
            (insertIfAbsent fD.name sp) (hconsNodup hnsf) hconsDisj hrest
        · have heq : stageLoop env link (p :: rest) (sf ++ fs0) sf sp =
              (.fail ("Unable to link " ++ p ++ " to " ++
                  destPathOf fD.name fD.version), sf ++ fs0, sf, sp) := by
            simp only [stageLoop, ho, hlink, if_true]
            rw [if_neg hcnd]
          rw [heq]
          exact ⟨hnd, hdisj, rfl⟩
      · by_cases hren : env.renameOkOf p = true
        · by_cases hdm : destPathOf fD.name fD.version ∈ sf ++ fs0
          · have hdsf : destPathOf fD.name fD.version ∈ sf := by
              rcases List.mem_append.mp hdm with h | h
              · exact h
              · exact absurd h hdest
            have hins : insertIfAbsent (destPathOf fD.name fD.version) sf =
                sf := by
              simp [insertIfAbsent, hdsf]
            by_cases hrc :
                env.restoreconOkOf (destPathOf fD.name fD.version) = true
            · have heq : stageLoop env link (p :: rest) (sf ++ fs0) sf sp =
                  stageLoop env link rest (sf ++ fs0) sf
                    (insertIfAbsent fD.name sp) := by
                simp [stageLoop, ho, hlink, hren, hdm, hins, hrc]
              rw [heq]
              exact ih sf fs0 (insertIfAbsent fD.name sp) hnd hdisj hrest
            · have heq : stageLoop env link (p :: rest) (sf ++ fs0) sf sp =
                  (.fail ("Failed to restorecon " ++
                      destPathOf fD.name fD.version),
                    sf ++ fs0, sf, insertIfAbsent fD.name sp) := by
                simp [stageLoop, ho, hlink, hren, hdm, hins, hrc]
              rw [heq]
              exact ⟨hnd, hdisj, rfl⟩
          · have hnsf : destPathOf fD.name fD.version ∉ sf :=
              fun hx => hdm (List.mem_append.mpr (Or.inl hx))
            have hins : insertIfAbsent (destPathOf fD.name fD.version) sf =
                destPathOf fD.name fD.version :: sf := by
              simp [insertIfAbsent, hnsf]
            by_cases hrc :
                env.restoreconOkOf (destPathOf fD.name fD.version) = true
            · have heq : stageLoop env link (p :: rest) (sf ++ fs0) sf sp =
                  stageLoop env link rest
                    ((destPathOf fD.name fD.version :: sf) ++ fs0)
                    (destPathOf fD.name fD.version :: sf)
                    (insertIfAbsent fD.name sp) := by
                simp [stageLoop, ho, hlink, hren, hdm, hins, hrc]
              rw [heq]
              exact ih (destPathOf fD.name fD.version :: sf) fs0
                (insertIfAbsent fD.name sp) (hconsNodup hnsf) hconsDisj hrest
            · have heq : stageLoop env link (p :: rest) (sf ++ fs0) sf sp =
                  (.fail ("Failed to restorecon " ++
                      destPathOf fD.name fD.version),
                    (destPathOf fD.name fD.version :: sf) ++ fs0,
                    destPathOf fD.name fD.version :: sf,
                    insertIfAbsent fD.name sp) := by
                simp [stageLoop, ho, hlink, hren, hdm, hins, hrc]
              rw [heq]
              exact ⟨hconsNodup hnsf, hconsDisj, rfl⟩
        · have heq : stageLoop env link (p :: rest) (sf ++ fs0) sf sp =
              (.fail ("Unable to rename " ++ p ++ " to " ++
                  destPathOf fD.name fD.version), sf ++ fs0, sf, sp) := by
            simp [stageLoop, ho, hlink, hren]
          rw [heq]
          exact ⟨hnd, hdisj, rfl⟩

theorem runDeleter_restores :
    ∀ (sf fs0 : List String), sf.Nodup → (∀ d ∈ sf, d ∉ fs0) →
      runDeleter sf (sf ++ fs0) = fs0 := by
  intro sf
  induction sf with
  | nil => intro fs0 _ _; rfl
  | cons d rest ih =>
    intro fs0 hnd hdisj
    simp only [runDeleter, List.foldl_cons, List.cons_append,
      List.erase_cons_head]
    exact ih fs0 (List.nodup_cons.mp hnd).2
      (fun x hx => hdisj x (List.mem_cons_of_mem d hx))

/-- C4 counterexample: in rename mode, when the active directory already
holds a file of the staged packageId, the `rename` replaces it in place;
when the batch then fails (here at `restorecon`) and does not commit, the
scope-guard deleter unlinks that destination — so a previously active file
has been removed by a failing batch, contradicting "every destination file
it had already produced ... is unlinked ... with no removal of previously
active files having occurred". -/
theorem stagePackages_rename_overwrite_cex :
    destPathOf cInfo.name cInfo.version ∈ renameCollideFs0 ∧
    (stagePackages renameCollideEnv [cTmpPath] false
        renameCollideFs0).committed = false ∧
    (stagePackages renameCollideEnv [cTmpPath] false
        renameCollideFs0).status ≠ .ok ∧
    destPathOf cInfo.name cInfo.version ∉
      (stagePackages renameCollideEnv [cTmpPath] false renameCollideFs0).fs ∧
    (stagePackages renameCollideEnv [cTmpPath] false renameCollideFs0).fs =
      [] := by
  refine ⟨?_, ?_, ?_, ?_, ?_⟩ <;> decide

/-- C4 (amended): provided no staged package's destination path already
names a file in the active directory (automatic in link mode, where
`link(2)` fails on an existing destination and aborts the batch; in rename
mode a colliding `rename(2)` silently replaces the previously active file
of the same packageId, which a later abort then unlinks), `stagePackages`
aborts transactionally: if the batch does not reach the commit point
(`scope_guard.Disable()`), every destination file produced so far has been
unlinked — the active directory is exactly as before — and the whole batch
fails; and the removal of previously active files runs only once the whole
staging loop has committed. -/
theorem stagePackages_transactional (env : StageEnv)
    (tmpPaths : List String) (link : Bool) (fs0 : List String)
    (hd : ∀ q ∈ tmpPaths, ∀ fD, openApex env.files q = some fD →
      destPathOf fD.name fD.version ∉ fs0) :
    ((stagePackages env tmpPaths link fs0).committed = false →
      (stagePackages env tmpPaths link fs0).fs = fs0 ∧
      (stagePackages env tmpPaths link fs0).status ≠ .ok) ∧
    ((stagePackages env tmpPaths link fs0).committed = true →
      (stageLoop env link tmpPaths fs0 [] []).1 = .ok) := by
  by_cases hemp : tmpPaths.isEmpty = true
  · constructor
    · intro _
      simp [stagePackages, hemp]
    · intro hcom
      simp [stagePackages, hemp] at hcom
  · rcases hv : verifyPackages env tmpPaths with _ | e
    · by_cases hcd : env.createDirOk = false
      · constructor
        · intro _
          simp [stagePackages, hemp, hv, hcd]
        · intro hcom
          simp [stagePackages, hemp, hv, hcd] at hcom
      · have hinv := stageLoop_inv env link tmpPaths [] fs0 [] (by simp)
          (by simp) hd
        simp only [List.nil_append] at hinv
        rcases hs : (stageLoop env link tmpPaths fs0 [] []).1 with _ | e2
        · constructor
          · intro hcom
            simp [stagePackages, hemp, hv, hcd, hs] at hcom
          · intro _
            rfl
        · have heq : stagePackages env tmpPaths link fs0 =
              ⟨.fail e2,
                runDeleter (stageLoop env link tmpPaths fs0 [] []).2.2.1
                  (stageLoop env link tmpPaths fs0 [] []).2.1, false⟩ := by
            simp [stagePackages, hemp, hv, hcd, hs]
          constructor
          · intro _
            rw [heq]
            refine ⟨?_, by simp⟩
            show runDeleter (stageLoop env link tmpPaths fs0 [] []).2.2.1
              (stageLoop env link tmpPaths fs0 [] []).2.1 = fs0
            rw [hinv.2.2]
            exact runDeleter_restores _ fs0 hinv.1 hinv.2.1
          · intro hcom
            rw [heq] at hcom
            cases hcom
    · constructor
      · intro _
        simp [stagePackages, hemp, hv]
      · intro hcom
        simp [stagePackages, hemp, hv] at hcom

/-- C4 witness: a concrete two-package batch whose second link fails: the
batch does not commit, the previously active file set is unchanged (the
first, already-linked destination was unlinked again), and the batch
fails. -/
theorem stagePackages_transactional_witness :
    (stagePackages partialLinkStageEnv [cPath, cPath2] true cFs0).committed =
      false ∧
    (stagePackages partialLinkStageEnv [cPath, cPath2] true cFs0).fs = cFs0 ∧
    (stagePackages partialLinkStageEnv [cPath, cPath2] true cFs0).status ≠
      .ok := by
  have hd : ∀ q ∈ [cPath, cPath2], ∀ fD,
      openApex partialLinkStageEnv.files q = some fD →
      destPathOf fD.name fD.version ∉ cFs0 := by
    intro q hq fD hfD
    rcases List.mem_cons.mp hq with h | h
    · subst h
      have : fD = ⟨cPath, "com.test", 1, false⟩ := by
        simpa [openApex, partialLinkStageEnv, cFiles2, cInfo] using hfD.symm
      rw [this]
      decide
    · simp at h
      subst h
      have : fD = ⟨cPath2, "com.two", 1, false⟩ := by
        simpa [openApex, partialLinkStageEnv, cFiles2, cInfo2, cPath2,
          cPath] using hfD.symm
      rw [this]
      decide
  have hcom : (stagePackages partialLinkStageEnv [cPath, cPath2] true
      cFs0).committed = false := by decide
  have := (stagePackages_transactional partialLinkStageEnv [cPath, cPath2]
    true cFs0 hd).1 hcom
  exact ⟨hcom, this.1, this.2⟩

/-- C10: for the empty list of input paths, `stagePackages`,
`preinstallPackages`, and `postinstallPackages` each return the
"Empty set of inputs" error, with no mutation of the active directory
(`stagePackages` returns it unchanged and uncommitted; the hook operations
touch no modelled state). -/
theorem empty_inputs_rejected (env : StageEnv) (link : Bool)
    (fs : List String) (preOk postOk : Bool) :
    stagePackages env [] link fs = ⟨.fail "Empty set of inputs", fs, false⟩ ∧
    preinstallPackages env preOk [] = .fail "Empty set of inputs" ∧
    postinstallPackages env postOk [] = .fail "Empty set of inputs" :=
  ⟨rfl, rfl, rfl⟩

theorem lexLe_refl (a : List Nat) : lexLe a a = true := by
  induction a with
  | nil => rfl
  | cons x xs ih => simp [lexLe, lt_irrefl, ih]

theorem lexLe_total (a : List Nat) :
    ∀ b, lexLe a b = true ∨ lexLe b a = true := by
  induction a with
  | nil => intro b; left; rfl
  | cons x xs ih =>
    intro b
    cases b with
    | nil => right; rfl
    | cons y ys =>
      by_cases h1 : x < y
      · left; simp [lexLe, h1]
      · by_cases h2 : y < x
        · right; simp [lexLe, h2]
        · rcases ih ys with h | h
          · left; simp [lexLe, h1, h2, h]
          · right; simp [lexLe, h1, h2, h]

theorem lexLe_trans (a : List Nat) :
    ∀ b c, lexLe a b = true → lexLe b c = true → lexLe a c = true := by
  induction a with
  | nil => intro b c _ _; rfl
  | cons x xs ih =>
    intro b c hab hbc
    cases b with
    | nil => simp [lexLe] at hab
    | cons y bs =>
      cases c with
      | nil => simp [lexLe] at hbc
      | cons z cs =>
        by_cases h1 : x < y
        · by_cases h3 : y < z
          · have h5 : x < z := by omega
            simp [lexLe, h5]
          · by_cases h4 : z < y
            · simp [lexLe, h3, h4] at hbc
            · have h5 : x < z := by omega
              simp [lexLe, h5]
        · by_cases h2 : y < x
          · simp [lexLe, h1, h2] at hab
          · by_cases h3 : y < z
            · have h5 : x < z := by omega
              simp [lexLe, h5]
            · by_cases h4 : z < y
              · simp [lexLe, h3, h4] at hbc
              · have h5 : ¬ x < z := by omega
                have h6 : ¬ z < x := by omega
                simp only [lexLe, h1, h2, if_neg h1, if_neg h2] at hab
                simp only [lexLe, h3, h4, if_neg h3, if_neg h4] at hbc
                simp only [lexLe, if_neg h5, if_neg h6]
                exact ih bs cs hab hbc

theorem lexLe_self_append (l t : List Nat) : lexLe l (l ++ t) = true := by
  induction l with
  | nil => rfl
  | cons x xs ih => simp [lexLe, lt_irrefl, ih]

theorem lexLe_append_cons_self (l : List Nat) (c : Nat) (t : List Nat) :
    lexLe (l ++ c :: t) l = false := by
  induction l with
  | nil => rfl
  | cons x xs ih => simp [lexLe, lt_irrefl, ih]

theorem perm_insertSorted (x : List Nat) :
    ∀ l, (insertSorted x l).Perm (x :: l) := by
  intro l
  induction l with
  | nil => exact List.Perm.refl _
  | cons y ys ih =>
    by_cases h : lexLe x y = true
    · rw [show insertSorted x (y :: ys) = x :: y :: ys from by
        simp [insertSorted, h]]
    · rw [show insertSorted x (y :: ys) = y :: insertSorted x ys from by
        simp [insertSorted, h]]
      exact (ih.cons y).trans (List.Perm.swap x y ys)

theorem perm_sortDirs (l : List (List Nat)) : (sortDirs l).Perm l := by
  induction l with
  | nil => exact List.Perm.refl _
  | cons x xs ih =>
    exact (perm_insertSorted x (sortDirs xs)).trans (ih.cons x)

theorem pairwise_insertSorted (x : List Nat) :
    ∀ l, List.Pairwise (fun u v => lexLe u v = true) l →
      List.Pairwise (fun u v => lexLe u v = true) (insertSorted x l) := by
  intro l
  induction l with
  | nil => intro _; simp [insertSorted]
  | cons y ys ih =>
    intro hp
    rcases List.pairwise_cons.mp hp with ⟨hy, hys⟩
    by_cases h : lexLe x y = true
    · rw [show insertSorted x (y :: ys) = x :: y :: ys from by
        simp [insertSorted, h]]
      refine List.pairwise_cons.mpr ⟨?_, hp⟩
      intro z hz
      rcases List.mem_cons.mp hz with h1 | h1
      · rw [h1]; exact h
      · exact lexLe_trans x y z h (hy z h1)
    · have hyx : lexLe y x = true := by
        rcases lexLe_total x y with h1 | h1
        · exact absurd h1 h
        · exact h1
      rw [show insertSorted x (y :: ys) = y :: insertSorted x ys from by
        simp [insertSorted, h]]
      refine List.pairwise_cons.mpr ⟨?_, ih hys⟩
      intro z hz
      have hz' : z ∈ x :: ys := (perm_insertSorted x ys).mem_iff.mp hz
      rcases List.mem_cons.mp hz' with h1 | h1
      · rw [h1]; exact hyx
      · exact hy z h1

theorem pairwise_sortDirs (l : List (List Nat)) :
    List.Pairwise (fun u v => lexLe u v = true) (sortDirs l) := by
  induction l with
  | nil => simp [sortDirs]
  | cons x xs ih => exact pairwise_insertSorted x (sortDirs xs) ih

theorem sorted_split_of_lt :
    ∀ (l : List (List Nat)) (a b : List Nat),
      List.Pairwise (fun u v => lexLe u v = true) l → a ∈ l → b ∈ l →
      lexLe b a = false → ∃ l1 l2, l = l1 ++ a :: l2 ∧ b ∈ l2 := by
  intro l
  induction l with
  | nil => intro a b _ ha _ _; simp at ha
  | cons x xs ih =>
    intro a b hp ha hb hba
    rcases List.pairwise_cons.mp hp with ⟨hx, hxs⟩
    by_cases hax : a = x
    · subst hax
      rcases List.mem_cons.mp hb with h1 | h1
      · rw [h1, lexLe_refl] at hba
        cases hba
      · exact ⟨[], xs, rfl, h1⟩
    · have ha' : a ∈ xs := by
        rcases List.mem_cons.mp ha with h1 | h1
        · exact absurd h1 hax
        · exact h1
      have hb' : b ∈ xs := by
        rcases List.mem_cons.mp hb with h1 | h1
        · exfalso
          rw [h1, hx a ha'] at hba
          cases hba
        · exact h1
      obtain ⟨l1, l2, hsplit, hbmem⟩ := ih a b hxs ha' hb' hba
      exact ⟨x :: l1, l2, by rw [hsplit]; rfl, hbmem⟩

/-- C8: the startup sweep processes the subdirectories of the mount root
in ascending sorted order (the processed sequence is a sorted permutation
of what was read), so the name-only alias directory is unmounted strictly
before any versioned directory `<name>@<version>` of the same package, and
the orphan loop devices are destroyed only after all directories have been
processed. -/
theorem unmountAndDetach_alias_first (folders : List (List Nat))
    (name ver : List Nat)
    (h1 : name ∈ folders) (h2 : name ++ atByte :: ver ∈ folders) :
    (sortDirs folders).Perm folders ∧
    List.Pairwise (fun u v => lexLe u v = true) (sortDirs folders) ∧
    (∃ e1 e2, unmountAndDetachExistingImages folders =
        e1 ++ SweepEv.unmount name :: e2 ∧
      SweepEv.unmount (name ++ atByte :: ver) ∈ e2) ∧
    (unmountAndDetachExistingImages folders).getLast? =
      some SweepEv.destroyLoops := by
  have hperm := perm_sortDirs folders
  have hpair := pairwise_sortDirs folders
  refine ⟨hperm, hpair, ?_, ?_⟩
  · have ha : name ∈ sortDirs folders := hperm.mem_iff.mpr h1
    have hb : name ++ atByte :: ver ∈ sortDirs folders :=
      hperm.mem_iff.mpr h2
    have hba : lexLe (name ++ atByte :: ver) name = false :=
      lexLe_append_cons_self name atByte ver
    obtain ⟨l1, l2, hsplit, hbmem⟩ := sorted_split_of_lt (sortDirs folders)
      name (name ++ atByte :: ver) hpair ha hb hba
    refine ⟨(l1.map (fun f => [SweepEv.unmount f, SweepEv.rmdir f])).flatten,
      SweepEv.rmdir name ::
        ((l2.map (fun f => [SweepEv.unmount f, SweepEv.rmdir f])).flatten ++
          [SweepEv.destroyLoops]), ?_, ?_⟩
    · unfold unmountAndDetachExistingImages
      rw [hsplit]
      simp
    · have hm : SweepEv.unmount (name ++ atByte :: ver) ∈
          (l2.map (fun f => [SweepEv.unmount f, SweepEv.rmdir f])).flatten := by
        have hmm : [SweepEv.unmount (name ++ atByte :: ver),
            SweepEv.rmdir (name ++ atByte :: ver)] ∈
            l2.map (fun f => [SweepEv.unmount f, SweepEv.rmdir f]) :=
          List.mem_map_of_mem _ hbmem
        exact List.mem_flatten.mpr ⟨_, hmm, by simp⟩
      simp [hm]
  · unfold unmountAndDetachExistingImages
    rw [List.getLast?_concat]

/-- C8 witness: a concrete mount root containing the alias directory
`c` (byte 99), its versioned directory `c@1` (bytes 99, 64, 49), and an
unrelated directory. -/
theorem unmountAndDetach_alias_first_witness :
    (sortDirs [[99, 64, 49], [99], [120]]).Perm [[99, 64, 49], [99], [120]] ∧
    List.Pairwise (fun u v => lexLe u v = true)
      (sortDirs [[99, 64, 49], [99], [120]]) ∧
    (∃ e1 e2, unmountAndDetachExistingImages [[99, 64, 49], [99], [120]] =
        e1 ++ SweepEv.unmount [99] :: e2 ∧
      SweepEv.unmount ([99] ++ atByte :: [49]) ∈ e2) ∧
    (unmountAndDetachExistingImages [[99, 64, 49], [99], [120]]).getLast? =
      some SweepEv.destroyLoops := by
  exact unmountAndDetach_alias_first [[99, 64, 49], [99], [120]] [99] [49]
    (by decide) (by decide)

end ApexdModel
